import Mathlib

/-!
# kex-stream-server: origin access gate, event store and request handlers

A shallow embedding of `eventstream/origin.go`, `go-server/eventstream/stream.go`
and `go-server/eventstream/handler.go`.

* Go `int`, `int64` are `Int` (wrapped explicitly where the program does arithmetic),
  `uint64` is `Nat` modulo `2 ^ 64`.
* A Go `map[string]*SecureOrigin` is an association list read at its first matching key.
* Mutation of the receiver is explicit state passing: a method returns its Go results
  together with the new receiver.
* Calls that leave the process (INSERT, SELECT, MQTT publish) are recorded in a trace.
-/

namespace KexStream

/-! ## Machine integers -/

/-- Two's complement wrap of an integer into the int64 range. -/
def wrapInt64 (x : Int) : Int := (x + 2 ^ 63) % 2 ^ 64 - 2 ^ 63

/-- Wrap of a natural number into the uint64 range. -/
def wrapUint64 (x : Nat) : Nat := x % 2 ^ 64

/-! ## crypto/sha256 and the "%x" verb, as used by Secure.Check -/

/-- UTF-8 encoding of one code point, as Go's []byte(string) lays it out. -/
def utf8Bytes (c : Nat) : List Nat :=
  if c < 0x80 then [c]
  else if c < 0x800 then [0xC0 + c / 64, 0x80 + c % 64]
  else if c < 0x10000 then [0xE0 + c / 4096, 0x80 + (c / 64) % 64, 0x80 + c % 64]
  else [0xF0 + c / 262144, 0x80 + (c / 4096) % 64, 0x80 + (c / 64) % 64, 0x80 + c % 64]

/-- The bytes of a Go string, []byte(s). -/
def stringBytes (s : String) : List Nat :=
  s.data.flatMap (fun ch => utf8Bytes ch.toNat)

/-- Rotation to the right of a 32-bit word. -/
def rotr32 (x n : Nat) : Nat := ((x >>> n) ||| (x <<< (32 - n))) % 2 ^ 32

/-- The 64 round constants of SHA-256. -/
def sha256K : List Nat :=
  [0x428a2f98, 0x71374491, 0xb5c0fbcf, 0xe9b5dba5, 0x3956c25b, 0x59f111f1, 0x923f82a4, 0xab1c5ed5,
   0xd807aa98, 0x12835b01, 0x243185be, 0x550c7dc3, 0x72be5d74, 0x80deb1fe, 0x9bdc06a7, 0xc19bf174,
   0xe49b69c1, 0xefbe4786, 0x0fc19dc6, 0x240ca1cc, 0x2de92c6f, 0x4a7484aa, 0x5cb0a9dc, 0x76f988da,
   0x983e5152, 0xa831c66d, 0xb00327c8, 0xbf597fc7, 0xc6e00bf3, 0xd5a79147, 0x06ca6351, 0x14292967,
   0x27b70a85, 0x2e1b2138, 0x4d2c6dfc, 0x53380d13, 0x650a7354, 0x766a0abb, 0x81c2c92e, 0x92722c85,
   0xa2bfe8a1, 0xa81a664b, 0xc24b8b70, 0xc76c51a3, 0xd192e819, 0xd6990624, 0xf40e3585, 0x106aa070,
   0x19a4c116, 0x1e376c08, 0x2748774c, 0x34b0bcb5, 0x391c0cb3, 0x4ed8aa4a, 0x5b9cca4f, 0x682e6ff3,
   0x748f82ee, 0x78a5636f, 0x84c87814, 0x8cc70208, 0x90befffa, 0xa4506ceb, 0xbef9a3f7, 0xc67178f2]

/-- The initial hash value of SHA-256. -/
def sha256Init : List Nat :=
  [0x6a09e667, 0xbb67ae85, 0x3c6ef372, 0xa54ff53a, 0x510e527f, 0x9b05688c, 0x1f83d9ab, 0x5be0cd19]

/-- Big-endian bytes of `x`, `n` of them. -/
def beBytes : Nat → Nat → List Nat
  | 0, _ => []
  | n + 1, x => beBytes n (x / 256) ++ [x % 256]

/-- Message padding: 0x80, zeros up to 56 mod 64, then the bit length on 8 bytes. -/
def sha256Pad (msg : List Nat) : List Nat :=
  msg ++ [0x80] ++ List.replicate ((119 - msg.length % 64) % 64) 0 ++ beBytes 8 (8 * msg.length)

/-- Big-endian 32-bit words of a byte string whose length is a multiple of 4. -/
def beWords : Nat → List Nat → List Nat
  | 0, _ => []
  | n + 1, bs => (bs.getD 0 0 * 16777216 + bs.getD 1 0 * 65536 + bs.getD 2 0 * 256 + bs.getD 3 0)
                  :: beWords n (bs.drop 4)

/-- Message schedule: 16 block words extended to 64. -/
def sha256Schedule (w16 : List Nat) : List Nat :=
  (List.range 48).foldl (fun w i =>
    let a := w.getD (i + 1) 0
    let b := w.getD (i + 14) 0
    let s0 := rotr32 a 7 ^^^ rotr32 a 18 ^^^ (a >>> 3)
    let s1 := rotr32 b 17 ^^^ rotr32 b 19 ^^^ (b >>> 10)
    w ++ [(w.getD i 0 + s0 + w.getD (i + 9) 0 + s1) % 2 ^ 32]) w16

/-- One round of the compression function on the working variables a..h. -/
def sha256Round (v : List Nat) (kw : Nat × Nat) : List Nat :=
  match v with
  | [a, b, c, d, e, f, g, h] =>
    let s1 := rotr32 e 6 ^^^ rotr32 e 11 ^^^ rotr32 e 25
    let ch := (e &&& f) ^^^ ((e ^^^ 0xffffffff) &&& g)
    let t1 := (h + s1 + ch + kw.1 + kw.2) % 2 ^ 32
    let s0 := rotr32 a 2 ^^^ rotr32 a 13 ^^^ rotr32 a 22
    let maj := (a &&& b) ^^^ (a &&& c) ^^^ (b &&& c)
    let t2 := (s0 + maj) % 2 ^ 32
    [(t1 + t2) % 2 ^ 32, a, b, c, (d + t1) % 2 ^ 32, e, f, g]
  | _ => v

/-- The compression of one 64-byte block into the hash value. -/
def sha256Block (hs : List Nat) (block : List Nat) : List Nat :=
  let w := sha256Schedule (beWords 16 block)
  let v := (sha256K.zip w).foldl sha256Round hs
  List.zipWith (fun x y => (x + y) % 2 ^ 32) hs v

/-- The compression of n successive blocks. -/
def sha256Blocks : Nat → List Nat → List Nat → List Nat
  | 0, hs, _ => hs
  | n + 1, hs, bs => sha256Blocks n (sha256Block hs (bs.take 64)) (bs.drop 64)

/-- The digest bytes that crypto/sha256 produces (h.Sum(nil)). -/
def sha256 (msg : List Nat) : List Nat :=
  let p := sha256Pad msg
  (sha256Blocks (p.length / 64) sha256Init p).flatMap (beBytes 4)

/-- One lowercase hex digit. -/
def hexDigit (n : Nat) : Char :=
  "0123456789abcdef".data.getD n '0'

/-- Lowercase hex of a byte string, fmt.Sprintf("%x", bytes). -/
def hexLower (bs : List Nat) : String :=
  String.mk (bs.flatMap (fun b => [hexDigit (b / 16), hexDigit (b % 16)]))

/-- The text fmt.Sprintf("%x", h.Sum(nil)) after h.Write([]byte(pass)) on a new SHA-256
hash (origin.go lines 99 to 101). -/
def sha256Hex (pass : String) : String := hexLower (sha256 (stringBytes pass))

/-! ## eventstream/origin.go -/

/-- Go struct SecureOrigin. -/
structure SecureOrigin where
  Id : String
  PassHash : String
  ReqsLastMin : Int
deriving DecidableEq, Repr

/-- Go map[string]*SecureOrigin. The nil map and the empty map are both the empty list:
reading a nil map yields the zero value and ok = false. -/
abbrev OriginMap := List (String × SecureOrigin)

/-- Map read, d, ok := m[id]. -/
def OriginMap.get : OriginMap → String → Option SecureOrigin
  | [], _ => none
  | (k, v) :: rest, id => if k = id then some v else OriginMap.get rest id

/-- Map write, m[id] = v. -/
def OriginMap.set : OriginMap → String → SecureOrigin → OriginMap
  | [], id, v => [(id, v)]
  | (k, w) :: rest, id, v => if k = id then (k, v) :: rest else (k, w) :: OriginMap.set rest id v

/-- Write through the pointer stored under id: the entry that m[id] reads is replaced by f of it. -/
def OriginMap.modify : OriginMap → String → (SecureOrigin → SecureOrigin) → OriginMap
  | [], _, _ => []
  | (k, v) :: rest, id, f =>
    if k = id then (k, f v) :: rest else (k, v) :: OriginMap.modify rest id f

/-- The keys of the map. -/
def OriginMap.keys (m : OriginMap) : List String := m.map Prod.fst

/-- Go struct Secure (the connection pool is the store, modelled apart). -/
structure Secure where
  LastRefreshed : Int
  MaxRequestsPerMin : Int
  Origins : OriginMap
deriving DecidableEq, Repr

/-- The three results of Secure.Check: (bool, error, string). -/
structure CheckResult where
  ok : Bool
  err : Option String
  msg : String
deriving DecidableEq, Repr

/-- atomic.AddInt64(addr, 1) on the counter of one origin. -/
def SecureOrigin.addRequest (d : SecureOrigin) : SecureOrigin :=
  { d with ReqsLastMin := wrapInt64 (d.ReqsLastMin + 1) }

/-- Secure.Check (origin.go lines 87 to 109). The credential test is the nested pair of
conditions of the source: a non-empty PassHash that differs from the hex digest. -/
def Secure.Check (s : Secure) (id pass : String) : CheckResult × Secure :=
  match s.Origins.get id with
  | none => (⟨false, none, "BLOCKED: unknown origin id"⟩, s)
  | some d =>
    if d.ReqsLastMin > s.MaxRequestsPerMin then
      (⟨false, some "maximum requests reached", "BLOCKED: maximum number of requests reached"⟩, s)
    else if d.PassHash ≠ "" ∧ d.PassHash ≠ sha256Hex pass then
      (⟨false, some "invalid password", "BLOCKED: invalid password"⟩, s)
    else
      (⟨true, none, ""⟩, { s with Origins := s.Origins.modify id SecureOrigin.addRequest })

/-- Successive Check calls for one id, one per presented credential, with no reload in between.
Returns the results in call order, the counter read after each call, and the final state. -/
def Secure.CheckSeq (s : Secure) (id : String) :
    List String → List (CheckResult × Option Int) × Secure
  | [] => ([], s)
  | pass :: rest =>
    let r := s.Check id pass
    let t := Secure.CheckSeq r.2 id rest
    ((r.1, (r.2.Origins.get id).map SecureOrigin.ReqsLastMin) :: t.1, t.2)

/-! ## go-server/eventstream/stream.go -/

/-- Go struct EventMessage (go-server/eventstream/stream.go lines 44 to 68). -/
structure EventMessage where
  Id : Int
  EventId : String
  CreationTimeUnixSec : Int
  OriginId : String
  OriginIter : Int
  OriginGroupId : String
  OriginBuildVersion : String
  DestinationId : String
  EventTimeUnixSec : Int
  EventType : String
  EventSubtype : String
  EventVersion : String
  PayloadJson : String
deriving DecidableEq, Repr

/-- A row of table public.events, as declared in the header comment of stream.go:
id, event_id, origin_id and destination_id are NOT NULL, every other column is nullable. -/
structure EventRow where
  id : Int
  event_id : String
  creation_time_unix_sec : Option Int
  origin_id : String
  origin_iter : Option Int
  origin_group_id : Option String
  origin_build_version : Option String
  destination_id : String
  destination_iter : Option Int
  event_time_unix_sec : Option Int
  event_type : Option String
  event_subtype : Option String
  event_version : Option String
  payload_json : Option String
deriving DecidableEq, Repr

/-- The twelve values bound to $1 .. $12 of the INSERT statement of SaveMessage. -/
structure InsertParams where
  event_id : String
  creation_time_unix_sec : Int
  origin_id : String
  origin_iter : Int
  origin_group_id : String
  origin_build_version : String
  destination_id : String
  event_time_unix_sec : Int
  event_type : String
  event_subtype : String
  event_version : String
  payload_json : String
deriving DecidableEq, Repr

/-- The arguments of one SELECT of the four GetByDestinationId functions:
the event type and the upper bound are present only in the variants that bind them. -/
structure SelectParams where
  destId : String
  eventType : Option String
  newestId : Int
  lastId : Option Int
  limit : Int
deriving DecidableEq, Repr

/-- A call that leaves the process: a statement sent to the store or a message handed
to the MQTT client. -/
inductive Effect where
  | insert (p : InsertParams)
  | select (q : SelectParams)
  | publish (topic : String) (qos : Nat) (retained : Bool) (payload : String)
deriving DecidableEq, Repr

/-- The connection pool as this program sees it: the events table that SELECT reads, and the
answer of the store to INSERT .. RETURNING id (an error, or the id that Scan writes to em.Id). -/
structure Conn where
  events : List EventRow
  insertAnswer : InsertParams → Except String Int

/-- The MQTT client: Publish returns a token, here whether the publish succeeded. -/
structure MqttClient where
  Publish : String → Nat → Bool → String → Bool

/-- Go struct EventStream. -/
structure EventStream where
  Conn : Conn
  MqttClient : Option MqttClient
  EventStreamId : String
  eventIdIter : Nat

/-- The clock and the encoding/json calls of the program. -/
structure Runtime where
  nowUnix : Int
  nowUnixNano : Int
  jsonMarshal : EventMessage → String
  jsonMarshalList : List EventMessage → String
  jsonUnmarshal : String → Except String EventMessage

/-- The values SaveMessage binds to the INSERT statement (stream.go lines 118 to 129). -/
def insertParamsOf (em : EventMessage) : InsertParams :=
  { event_id := em.EventId
    creation_time_unix_sec := em.CreationTimeUnixSec
    origin_id := em.OriginId
    origin_iter := em.OriginIter
    origin_group_id := em.OriginGroupId
    origin_build_version := em.OriginBuildVersion
    destination_id := em.DestinationId
    event_time_unix_sec := em.EventTimeUnixSec
    event_type := em.EventType
    event_subtype := em.EventSubtype
    event_version := em.EventVersion
    payload_json := em.PayloadJson }

/-- The two results of SaveMessage together with the calls it made. -/
structure SaveOutcome where
  em : EventMessage
  err : Option String
  trace : List Effect
deriving DecidableEq, Repr

/-- The MQTT part of SaveMessage (stream.go lines 142 to 152): both tokens are dropped. -/
def EventStream.publishLastEvent (rt : Runtime) (es : EventStream) (em : EventMessage) :
    List Effect :=
  match es.MqttClient with
  | none => []
  | some c =>
    let data := rt.jsonMarshal em
    let mqttLocalPath := "eventstream/" ++ em.DestinationId ++ "/lastEvent"
    let _tok1 := c.Publish mqttLocalPath 1 true data
    let mqttServerPath := "eventstream/" ++ es.EventStreamId ++ "/lastEvent"
    let _tok2 := c.Publish mqttServerPath 1 true data
    [Effect.publish mqttLocalPath 1 true data, Effect.publish mqttServerPath 1 true data]

/-- Lines 106 to 111 of SaveMessage: an empty destination becomes the origin, and the
creation time is stamped with the clock. -/
def prepareForInsert (rt : Runtime) (em : EventMessage) : EventMessage :=
  let em1 := if em.DestinationId = "" then { em with DestinationId := em.OriginId } else em
  { em1 with CreationTimeUnixSec := rt.nowUnix }

/-- EventStream.SaveMessage (go-server/eventstream/stream.go lines 93 to 155). -/
def EventStream.SaveMessage (rt : Runtime) (es : EventStream) (em : EventMessage) : SaveOutcome :=
  if em.EventId = "" then
    ⟨em, some "EventId not set", []⟩
  else if em.OriginId = "" ∨ em.OriginBuildVersion = "" then
    ⟨em, some "OriginId or OriginBuildVersion not set", []⟩
  else if em.EventType = "" ∨ em.EventVersion = "" then
    ⟨em, some "EventType or EventVersion not set", []⟩
  else
    let em2 := prepareForInsert rt em
    let p := insertParamsOf em2
    match es.Conn.insertAnswer p with
    | .error e => ⟨em2, some e, [Effect.insert p]⟩
    | .ok id =>
      let em3 := { em2 with Id := id }
      if em3.Id = 0 then
        ⟨em3, some "error inserting event in database, no Id returned", [Effect.insert p]⟩
      else
        ⟨em3, none, Effect.insert p :: es.publishLastEvent rt em3⟩

/-- One row of a SELECT result: thirteen columns, each possibly NULL. -/
structure ResultRow where
  c_id : Option Int
  c_event_id : Option String
  c_creation_time_unix_sec : Option Int
  c_origin_id : Option String
  c_origin_iter : Option Int
  c_origin_group_id : Option String
  c_origin_build_version : Option String
  c_destination_id : Option String
  c_event_time_unix_sec : Option Int
  c_event_type : Option String
  c_event_subtype : Option String
  c_event_version : Option String
  c_payload_json : Option String
deriving DecidableEq, Repr

/-- SQL COALESCE(x, d). -/
def coalesce {α : Type} (x : Option α) (d : α) : Option α :=
  match x with
  | some v => some v
  | none => some d

/-- The select list shared by GetByDestinationId, GetByDestinationIdAndEventType and
GetByDestinationIdAndEventTypePage (stream.go lines 199, 238, 258): every nullable column
has a COALESCE default. -/
def selectList (r : EventRow) : ResultRow :=
  { c_id := some r.id
    c_event_id := some r.event_id
    c_creation_time_unix_sec := coalesce r.creation_time_unix_sec 0
    c_origin_id := coalesce (some r.origin_id) ""
    c_origin_iter := coalesce r.origin_iter 0
    c_origin_group_id := coalesce r.origin_group_id ""
    c_origin_build_version := coalesce r.origin_build_version ""
    c_destination_id := coalesce (some r.destination_id) ""
    c_event_time_unix_sec := coalesce r.event_time_unix_sec 0
    c_event_type := coalesce r.event_type ""
    c_event_subtype := coalesce r.event_subtype ""
    c_event_version := coalesce r.event_version ""
    c_payload_json := coalesce r.payload_json "\x7b\x7d" }

/-- The select list of GetByDestinationIdPage (stream.go line 218): the same, except that
event_subtype is selected as COALESCE(event_subtype), with no default. -/
def selectListPage (r : EventRow) : ResultRow :=
  { selectList r with c_event_subtype := r.event_subtype }

/-- The call rows.Scan into the thirteen fields of an EventMessage: a NULL cannot be assigned
to a Go string or int64. -/
def rowsScan (r : ResultRow) : Except String EventMessage :=
  let scanned : Option EventMessage :=
    r.c_id.bind fun a0 => r.c_event_id.bind fun a1 =>
    r.c_creation_time_unix_sec.bind fun a2 => r.c_origin_id.bind fun a3 =>
    r.c_origin_iter.bind fun a4 => r.c_origin_group_id.bind fun a5 =>
    r.c_origin_build_version.bind fun a6 => r.c_destination_id.bind fun a7 =>
    r.c_event_time_unix_sec.bind fun a8 => r.c_event_type.bind fun a9 =>
    r.c_event_subtype.bind fun a10 => r.c_event_version.bind fun a11 =>
    r.c_payload_json.bind fun a12 =>
      some { Id := a0, EventId := a1, CreationTimeUnixSec := a2, OriginId := a3,
             OriginIter := a4, OriginGroupId := a5, OriginBuildVersion := a6,
             DestinationId := a7, EventTimeUnixSec := a8, EventType := a9,
             EventSubtype := a10, EventVersion := a11, PayloadJson := a12 }
  match scanned with
  | some m => .ok m
  | none => .error "can't scan into dest: cannot scan null into *string"

/-- The loop of ParseRows: ms is the slice built so far. -/
def ParseRows.loop : List ResultRow → List EventMessage → List EventMessage × Option String
  | [], ms => (ms, none)
  | r :: rest, ms =>
    match rowsScan r with
    | .error e => ([], some e)
    | .ok m => ParseRows.loop rest (ms ++ [m])

/-- ParseRows (stream.go lines 157 to 186). -/
def ParseRows (rows : List ResultRow) : List EventMessage × Option String :=
  ParseRows.loop rows []

/-- ORDER BY id DESC: a row comes no later than another when its id is no smaller. -/
def byIdDesc (a b : EventRow) : Prop := b.id ≤ a.id

instance byIdDesc.decidable : DecidableRel byIdDesc :=
  fun a b => inferInstanceAs (Decidable (b.id ≤ a.id))

/-- SELECT sel FROM events WHERE wh ORDER BY id DESC LIMIT limit. A negative LIMIT is an
error of the store. The column id is the primary key, so the rows of a table have distinct
ids and the order is determined; rows with equal ids would keep their table order here. -/
def sqlSelect (table : List EventRow) (wh : EventRow → Bool) (limit : Int)
    (sel : EventRow → ResultRow) : Except String (List ResultRow) :=
  if limit < 0 then .error "LIMIT must not be negative"
  else .ok ((((table.filter wh).insertionSort byIdDesc).take limit.toNat).map sel)

/-- The tail common to the four query functions: an error of Query is returned with the
empty slice, otherwise the rows go through ParseRows. -/
def queryThenParse (q : Except String (List ResultRow)) : List EventMessage × Option String :=
  match q with
  | .error e => ([], some e)
  | .ok rows => ParseRows rows

/-- EventStream.GetByDestinationId (stream.go lines 194 to 209). -/
def EventStream.GetByDestinationId (es : EventStream) (destId : String) (newestId limit : Int) :
    List EventMessage × Option String :=
  queryThenParse (sqlSelect es.Conn.events
    (fun r => decide (r.destination_id = destId) && decide (r.id > newestId)) limit selectList)

/-- EventStream.GetByDestinationIdPage (stream.go lines 213 to 229). -/
def EventStream.GetByDestinationIdPage (es : EventStream) (destId : String)
    (newestId lastId limit : Int) : List EventMessage × Option String :=
  queryThenParse (sqlSelect es.Conn.events
    (fun r => decide (r.destination_id = destId) && decide (r.id > newestId)
      && decide (r.id < lastId)) limit selectListPage)

/-- EventStream.GetByDestinationIdAndEventType (stream.go lines 233 to 249). -/
def EventStream.GetByDestinationIdAndEventType (es : EventStream) (destId eventType : String)
    (newestId limit : Int) : List EventMessage × Option String :=
  queryThenParse (sqlSelect es.Conn.events
    (fun r => decide (r.destination_id = destId) && decide (r.event_type = some eventType)
      && decide (r.id > newestId)) limit selectList)

/-- EventStream.GetByDestinationIdAndEventTypePage (stream.go lines 253 to 270). -/
def EventStream.GetByDestinationIdAndEventTypePage (es : EventStream) (destId eventType : String)
    (newestId lastId limit : Int) : List EventMessage × Option String :=
  queryThenParse (sqlSelect es.Conn.events
    (fun r => decide (r.destination_id = destId) && decide (r.event_type = some eventType)
      && decide (r.id > newestId) && decide (r.id < lastId)) limit selectList)

/-! ## go-server/eventstream/handler.go -/

/-- The digits of a decimal numeral, most significant first; none when a byte is not a digit. -/
def parseDigits : List Char → Nat → Option Nat
  | [], acc => some acc
  | c :: rest, acc =>
    if '0' ≤ c ∧ c ≤ '9' then parseDigits rest (acc * 10 + (c.toNat - '0'.toNat)) else none

/-- The call strconv.Atoi on a 64-bit platform: the value and whether err is non-nil.
A syntax error gives 0, a range error gives the nearest bound. -/
def Atoi (s : String) : Int × Bool :=
  let body : List Char × Bool :=
    match s.data with
    | '-' :: rest => (rest, true)
    | '+' :: rest => (rest, false)
    | cs => (cs, false)
  if body.1 = [] then (0, true)
  else
    match parseDigits body.1 0 with
    | none => (0, true)
    | some n =>
      if body.2 then
        if n > 2 ^ 63 then (-(2 ^ 63 : Int), true) else (-(n : Int), false)
      else
        if n ≥ 2 ^ 63 then ((2 ^ 63 : Int) - 1, true) else ((n : Int), false)

/-- The parts of an http.Request the two handlers read. -/
structure Request where
  Method : String
  Form : List (String × String)
  Body : Except String String

/-- The call r.FormValue(key): the first value of the key, or the empty string. -/
def Request.FormValue (r : Request) (key : String) : String :=
  match r.Form.find? (fun kv => kv.1 = key) with
  | some kv => kv.2
  | none => ""

/-- What the handler wrote to the http.ResponseWriter. -/
structure Response where
  status : Nat
  body : String
deriving DecidableEq, Repr

/-- The call http.Error(w, msg, code). -/
def httpError (msg : String) (code : Nat) : Response := ⟨code, msg ++ "\n"⟩

/-- Reading the request body through http.MaxBytesReader(w, r.Body, 1*1024*1024). -/
def readBody (r : Request) : Except String String :=
  match r.Body with
  | .error e => .error e
  | .ok data =>
    if data.utf8ByteSize > 1 * 1024 * 1024 then .error "http: request body too large"
    else .ok data

/-- Go struct Handler (the fields the two handlers use). -/
structure Handler where
  Debug : Bool
  Secure : Secure
  EventStream : EventStream

/-- What a handler call leaves behind: the response, the Secure state after the call, and
the calls made to the store and to MQTT, in order. -/
structure HandlerOutcome where
  resp : Response
  secure : Secure
  trace : List Effect
deriving DecidableEq, Repr

/-- The response body json.Marshal(struct{ Id int64 }{Id: id}). -/
def jsonIdObj (id : Int) : String := "\x7b\"Id\":" ++ toString id ++ "\x7d"

/-- The id under which AddEvent calls Secure.Check and files the event
(handler.go lines 42 to 47). -/
def addEventDestId (r : Request) : String :=
  if r.FormValue "destId" = "" then r.FormValue "id" else r.FormValue "destId"

/-- The build version the two handlers compute (handler.go lines 49 to 52 and 126 to 129).
Neither handler reads it afterwards. -/
def addEventBuildVersion (r : Request) : String :=
  if r.FormValue "build" = "" then "not set" else r.FormValue "build"

/-- The event AddEvent hands to SaveMessage (handler.go lines 84 and 85): the decoded body
with OriginId set to the id parameter and DestinationId to the destination of the request. -/
def addEventMessage (r : Request) (event0 : EventMessage) : EventMessage :=
  { event0 with OriginId := r.FormValue "id", DestinationId := addEventDestId r }

/-- Handler.AddEvent (handler.go lines 35 to 97). -/
def Handler.AddEvent (rt : Runtime) (h : Handler) (r : Request) : HandlerOutcome :=
  if r.Method = "OPTIONS" then ⟨⟨200, ""⟩, h.Secure, []⟩
  else
    let destId := addEventDestId r
    let _buildVersion := addEventBuildVersion r
    let chk := h.Secure.Check destId (r.FormValue "p")
    if chk.1.ok = false then ⟨httpError "not authorized" 401, chk.2, []⟩
    else if chk.1.err ≠ none then ⟨httpError "authentication error" 500, chk.2, []⟩
    else
      match readBody r with
      | .error _ => ⟨httpError "error" 500, chk.2, []⟩
      | .ok data =>
        match rt.jsonUnmarshal data with
        | .error _ => ⟨httpError "json error" 500, chk.2, []⟩
        | .ok event0 =>
          let event := addEventMessage r event0
          let saved := h.EventStream.SaveMessage rt event
          if saved.err ≠ none then ⟨httpError "error saving event" 500, chk.2, saved.trace⟩
          else ⟨⟨200, jsonIdObj saved.em.Id⟩, chk.2, saved.trace⟩

/-- The query GetOriginEvents runs once the request is authorised and its limit accepted
(handler.go lines 161 to 176), with the SELECT it sends. -/
def Handler.runQuery (h : Handler) (destId eventType : String) (newestId lastId limit : Int) :
    (List EventMessage × Option String) × Effect :=
  if eventType = "" then
    if lastId ≠ 0 then
      (h.EventStream.GetByDestinationIdPage destId newestId lastId limit,
        Effect.select ⟨destId, none, newestId, some lastId, limit⟩)
    else
      (h.EventStream.GetByDestinationId destId newestId limit,
        Effect.select ⟨destId, none, newestId, none, limit⟩)
  else
    if lastId ≠ 0 then
      (h.EventStream.GetByDestinationIdAndEventTypePage destId eventType newestId lastId limit,
        Effect.select ⟨destId, some eventType, newestId, some lastId, limit⟩)
    else
      (h.EventStream.GetByDestinationIdAndEventType destId eventType newestId limit,
        Effect.select ⟨destId, some eventType, newestId, none, limit⟩)

/-- What the store function that sends a given SELECT returns: the function is fixed by
which of the event type and the upper bound the statement binds. -/
def EventStream.runSelect (es : EventStream) (q : SelectParams) :
    List EventMessage × Option String :=
  match q.eventType, q.lastId with
  | none, none => es.GetByDestinationId q.destId q.newestId q.limit
  | none, some lastId => es.GetByDestinationIdPage q.destId q.newestId lastId q.limit
  | some eventType, none =>
    es.GetByDestinationIdAndEventType q.destId eventType q.newestId q.limit
  | some eventType, some lastId =>
    es.GetByDestinationIdAndEventTypePage q.destId eventType q.newestId lastId q.limit

/-- Handler.GetOriginEvents (handler.go lines 117 to 185). -/
def Handler.GetOriginEvents (rt : Runtime) (h : Handler) (r : Request) : HandlerOutcome :=
  if r.Method = "OPTIONS" then ⟨⟨200, ""⟩, h.Secure, []⟩
  else
    let destId := r.FormValue "id"
    let _buildVersion := addEventBuildVersion r
    let chk := h.Secure.Check destId (r.FormValue "p")
    if chk.1.ok = false then ⟨httpError "not authorized" 401, chk.2, []⟩
    else if chk.1.err ≠ none then ⟨httpError "authentication error" 500, chk.2, []⟩
    else
      let eventType := r.FormValue "eventType"
      let limit0 := (Atoi (r.FormValue "limit")).1
      let limit := if limit0 = 0 then 100 else limit0
      if limit > 1000 then ⟨httpError "limit cannot be more than 1000" 400, chk.2, []⟩
      else
        let lastId := (Atoi (r.FormValue "lastId")).1
        let newestId0 := Atoi (r.FormValue "newestId")
        let newestId := if newestId0.2 then -1 else newestId0.1
        let q := h.runQuery destId eventType newestId lastId limit
        if q.1.2 ≠ none then ⟨httpError "error getting event messages" 500, chk.2, [q.2]⟩
        else ⟨⟨200, rt.jsonMarshalList q.1.1⟩, chk.2, [q.2]⟩

/-! ## Paging backward through a destination (doc comment of GetOriginEvents) -/

/-- The lowest id of a non-empty page. -/
def smallestId (m : EventMessage) (rest : List EventMessage) : Int :=
  rest.foldl (fun acc x => min acc x.Id) m.Id

/-- The client procedure described in the doc comment of Handler.GetOriginEvents
(handler.go lines 99 to 116): given the page just received, stop on an error or on an empty
page, otherwise ask GetByDestinationIdPage for the next page with lastId the lowest id of this
page and the same newestId. Returns the pages received, the last one included, and the error
that stopped it if any; none when the given number of further requests did not reach the end. -/
def pageLoop (es : EventStream) (destId : String) (newestId limit : Int) :
    Nat → List EventMessage × Option String → Option (List (List EventMessage) × Option String)
  | _, (_, some e) => some ([], some e)
  | _, ([], none) => some ([[]], none)
  | 0, (_ :: _, none) => none
  | fuel + 1, (m :: rest, none) =>
    match pageLoop es destId newestId limit fuel
        (es.GetByDestinationIdPage destId newestId (smallestId m rest) limit) with
    | none => none
    | some (pages, err) => some ((m :: rest) :: pages, err)

/-- Paging backward from the newest event: the first page comes from GetByDestinationId. -/
def pageBackward (es : EventStream) (destId : String) (newestId limit : Int) (fuel : Nat) :
    Option (List (List EventMessage) × Option String) :=
  pageLoop es destId newestId limit fuel (es.GetByDestinationId destId newestId limit)

/-- The EventMessage a row of the table is read as: NULL columns take the defaults of
the COALESCE select list. -/
def eventOfRow (r : EventRow) : EventMessage :=
  { Id := r.id
    EventId := r.event_id
    CreationTimeUnixSec := r.creation_time_unix_sec.getD 0
    OriginId := r.origin_id
    OriginIter := r.origin_iter.getD 0
    OriginGroupId := r.origin_group_id.getD ""
    OriginBuildVersion := r.origin_build_version.getD ""
    DestinationId := r.destination_id
    EventTimeUnixSec := r.event_time_unix_sec.getD 0
    EventType := r.event_type.getD ""
    EventSubtype := r.event_subtype.getD ""
    EventVersion := r.event_version.getD ""
    PayloadJson := r.payload_json.getD "\x7b\x7d" }

/-- All events of a destination above newestId, newest first. -/
def allEventsDesc (table : List EventRow) (destId : String) (newestId : Int) :
    List EventMessage :=
  ((table.filter (fun r => decide (r.destination_id = destId) && decide (r.id > newestId))).insertionSort
    byIdDesc).map eventOfRow

/-! ## eventstream/stream.go (the package without destinations) -/

namespace Legacy

/-- Go struct EventMessage (eventstream/stream.go lines 18 to 40). -/
structure EventMessage where
  Id : Int
  EventId : String
  CreationTimeUnixSec : Int
  OriginId : String
  OriginIter : Int
  OriginGroupId : String
  OriginBuildVersion : String
  EventTimeUnixSec : Int
  EventType : String
  EventVersion : String
  PayloadJson : String
deriving DecidableEq, Repr

/-- The ten values bound to the INSERT statement (eventstream/stream.go lines 87 to 96). -/
structure InsertParams where
  event_id : String
  creation_time_unix_sec : Int
  origin_id : String
  origin_iter : Int
  origin_group_id : String
  origin_build_version : String
  event_time_unix_sec : Int
  event_type : String
  event_version : String
  payload_json : String
deriving DecidableEq, Repr

/-- A call that leaves the process. -/
inductive Effect where
  | insert (p : InsertParams)
  | publish (topic : String) (qos : Nat) (retained : Bool) (payload : String)
deriving DecidableEq, Repr

/-- Go struct EventStream with the answer of the store to the INSERT. -/
structure EventStream where
  insertAnswer : InsertParams → Except String Int
  MqttClient : Option MqttClient
  EventStreamId : String
  eventIdIter : Nat

/-- The two results of SaveMessage together with the calls it made. -/
structure SaveOutcome where
  em : EventMessage
  err : Option String
  trace : List Effect
deriving DecidableEq, Repr

/-- The values bound to the INSERT statement. -/
def insertParamsOf (em : EventMessage) : InsertParams :=
  { event_id := em.EventId
    creation_time_unix_sec := em.CreationTimeUnixSec
    origin_id := em.OriginId
    origin_iter := em.OriginIter
    origin_group_id := em.OriginGroupId
    origin_build_version := em.OriginBuildVersion
    event_time_unix_sec := em.EventTimeUnixSec
    event_type := em.EventType
    event_version := em.EventVersion
    payload_json := em.PayloadJson }

/-- EventStream.SaveMessage (eventstream/stream.go lines 65 to 122). -/
def EventStream.SaveMessage (nowUnix : Int) (jsonMarshal : EventMessage → String)
    (es : EventStream) (em : EventMessage) : SaveOutcome :=
  if em.EventId = "" then
    ⟨em, some "EventId not set", []⟩
  else if em.OriginId = "" ∨ em.OriginBuildVersion = "" then
    ⟨em, some "OriginId or OriginBuildVersion not set", []⟩
  else if em.EventType = "" ∨ em.EventVersion = "" then
    ⟨em, some "EventType or EventVersion not set", []⟩
  else
    let em2 := { em with CreationTimeUnixSec := nowUnix }
    let p := insertParamsOf em2
    match es.insertAnswer p with
    | .error e => ⟨em2, some e, [Effect.insert p]⟩
    | .ok id =>
      let em3 := { em2 with Id := id }
      if em3.Id = 0 then
        ⟨em3, some "error inserting event in database, no Id returned", [Effect.insert p]⟩
      else
        match es.MqttClient with
        | none => ⟨em3, none, [Effect.insert p]⟩
        | some c =>
          let data := jsonMarshal em3
          let mqttLocalPath := "eventstream/" ++ em3.OriginId ++ "/lastEvent"
          let _tok1 := c.Publish mqttLocalPath 1 true data
          let mqttServerPath := "eventstream/" ++ es.EventStreamId ++ "/lastEvent"
          let _tok2 := c.Publish mqttServerPath 1 true data
          ⟨em3, none, [Effect.insert p, Effect.publish mqttLocalPath 1 true data,
            Effect.publish mqttServerPath 1 true data]⟩

end Legacy

/-! ## GenStreamEventId (both packages) -/

/-- An operand of fmt.Sprint, of one of the three types GenStreamEventId passes. -/
inductive SprintArg where
  | str (s : String)
  | int64 (i : Int)
  | uint64 (n : Nat)
deriving DecidableEq, Repr

/-- Whether the operand is of kind string. -/
def SprintArg.isString : SprintArg → Bool
  | .str _ => true
  | .int64 _ => false
  | .uint64 _ => false

/-- The default format of an operand: a string as it is, an integer in decimal. -/
def SprintArg.text : SprintArg → String
  | .str s => s
  | .int64 i => toString i
  | .uint64 n => toString n

/-- The loop of fmt.Sprint: a space goes between two operands when neither is a string. -/
def doPrint : List SprintArg → Nat → Bool → String
  | [], _, _ => ""
  | a :: rest, argNum, prevString =>
    (if argNum > 0 ∧ a.isString = false ∧ prevString = false then " " else "") ++ a.text ++
      doPrint rest (argNum + 1) a.isString

/-- The call fmt.Sprint(args...). -/
def fmtSprint (args : List SprintArg) : String := doPrint args 0 false

/-- EventStream.GenStreamEventId (go-server/eventstream/stream.go lines 88 to 90): the
clock reading is an argument, atomic.AddUint64 returns the new value of the counter. -/
def EventStream.GenStreamEventId (nowUnixNano : Int) (es : EventStream) : String × EventStream :=
  let iter := wrapUint64 (es.eventIdIter + 1)
  (fmtSprint [.int64 nowUnixNano, .str "_", .uint64 iter, .str "_", .str es.EventStreamId],
    { es with eventIdIter := iter })

/-- Successive calls of GenStreamEventId on one EventStream, one per clock reading. -/
def EventStream.GenStreamEventIdSeq (es : EventStream) : List Int → List String × EventStream
  | [] => ([], es)
  | now :: rest =>
    let r := es.GenStreamEventId now
    let t := EventStream.GenStreamEventIdSeq r.2 rest
    (r.1 :: t.1, t.2)

/-- EventStream.GenStreamEventId of the package without destinations
(eventstream/stream.go lines 60 to 62). -/
def Legacy.EventStream.GenStreamEventId (nowUnixNano : Int) (es : Legacy.EventStream) :
    String × Legacy.EventStream :=
  let iter := wrapUint64 (es.eventIdIter + 1)
  (fmtSprint [.int64 nowUnixNano, .str "_", .uint64 iter, .str "_", .str es.EventStreamId],
    { es with eventIdIter := iter })

/-- Successive calls of GenStreamEventId of the package without destinations. -/
def Legacy.EventStream.GenStreamEventIdSeq (es : Legacy.EventStream) :
    List Int → List String × Legacy.EventStream
  | [] => ([], es)
  | now :: rest =>
    let r := es.GenStreamEventId now
    let t := Legacy.EventStream.GenStreamEventIdSeq r.2 rest
    (r.1 :: t.1, t.2)

/-! ## ReloadOriginsChron (eventstream/origin.go lines 51 to 85) -/

/-- A row of table public.origins (header comment of origin.go): id is the primary key,
pass_hash is nullable. -/
structure OriginRow where
  id : String
  pass_hash : Option String
deriving DecidableEq, Repr

/-- The SecureOrigin one iteration scans from a row of
SELECT id, COALESCE(pass_hash, '') : a fresh struct, so its counter is 0. -/
def scanOrigin (row : OriginRow) : SecureOrigin :=
  ⟨row.id, row.pass_hash.getD "", 0⟩

/-- One iteration of the rows loop (lines 64 to 72): origins[origin.Id] = &origin. -/
def reloadInsert (origins : OriginMap) (row : OriginRow) : OriginMap :=
  origins.set row.id (scanOrigin row)

/-- The state of one cycle between two statements: the Secure every reader sees and the
local map origins. -/
structure ReloadState where
  secure : Secure
  origins : OriginMap
deriving DecidableEq, Repr

/-- The states after each iteration of the rows loop and then after the assignment
s.Origins = origins (lines 63 to 78). -/
def reloadRows (s : Secure) : List OriginRow → OriginMap → List ReloadState
  | [], origins => [⟨{ s with Origins := origins }, origins⟩]
  | row :: rest, origins =>
    ⟨s, reloadInsert origins row⟩ :: reloadRows s rest (reloadInsert origins row)

/-- The state after the last statement of a cycle: s.LastRefreshed = time.Now().Unix(). -/
def ReloadState.stamp (st : ReloadState) (now : Int) : ReloadState :=
  { st with secure := { st.secure with LastRefreshed := now } }

/-- The states one cycle goes through, statement by statement, from
origins := make(map) on: none when the query fails (the loop panics). -/
def Secure.reloadCycleStates (s : Secure) (load : Except String (List OriginRow)) (now : Int) :
    Option (List ReloadState) :=
  match load with
  | .error _ => none
  | .ok rows =>
    let states := ⟨s, []⟩ :: reloadRows s rows []
    some (states ++ [(states.getLast (by simp [states])).stamp now])

/-- One cycle of the loop of ReloadOriginsChron, from the query to the assignment of
LastRefreshed: the Secure it leaves, none when the query fails (the loop panics). -/
def Secure.reloadCycle (s : Secure) (load : Except String (List OriginRow)) (now : Int) :
    Option Secure :=
  match load with
  | .error _ => none
  | .ok rows => some { s with Origins := rows.foldl reloadInsert [], LastRefreshed := now }

/-- The first cycles of ReloadOriginsChron, one per answer of the store and clock reading. -/
def Secure.ReloadOriginsChron (s : Secure) :
    List (Except String (List OriginRow) × Int) → Option Secure
  | [] => some s
  | (load, now) :: rest =>
    match s.reloadCycle load now with
    | none => none
    | some s1 => Secure.ReloadOriginsChron s1 rest

/-! ## Concrete inputs -/

/-- One origin "a" with no credential and counter 0, under the limit main.go configures. -/
def secureSixty : Secure := ⟨0, 60, [("a", ⟨"a", "", 0⟩)]⟩

/-- Two origins under limit 60: "a" with no credential, "b" with the digest of "password". -/
def secureSample : Secure :=
  ⟨0, 60, [("a", ⟨"a", "", 0⟩),
           ("b", ⟨"b", "5e884898da28047151d0e56f8dc6292773603d0d6aabbdd62a11ef721d1542d8", 0⟩)]⟩

/-- A Secure whose snapshot was never loaded. -/
def secureUnloaded : Secure := ⟨0, 60, []⟩

/-- A request body: the JSON text of an event that names "from-body" as its origin and as
its destination. -/
def sampleBody : String :=
  "\x7b\"EventId\":\"e1\",\"OriginId\":\"from-body\",\"OriginIter\":1," ++
  "\"OriginBuildVersion\":\"v1\",\"DestinationId\":\"from-body\",\"EventTimeUnixSec\":5," ++
  "\"EventType\":\"temp\",\"EventVersion\":\"1\",\"PayloadJson\":\"\x7b\x7d\"\x7d"

/-- What json.Unmarshal makes of sampleBody. -/
def sampleBodyEvent : EventMessage :=
  { Id := 0, EventId := "e1", CreationTimeUnixSec := 0, OriginId := "from-body",
    OriginIter := 1, OriginGroupId := "", OriginBuildVersion := "v1",
    DestinationId := "from-body", EventTimeUnixSec := 5, EventType := "temp",
    EventSubtype := "", EventVersion := "1", PayloadJson := "\x7b\x7d" }

/-- A JSON string literal of a text that needs no escaping. -/
def jsonQuote (t : String) : String := "\"" ++ t ++ "\""

/-- The text json.Marshal gives for an event whose strings need no escaping. -/
def sampleMarshal (em : EventMessage) : String :=
  "\x7b\"Id\":" ++ toString em.Id ++ ",\"EventId\":" ++ jsonQuote em.EventId ++
  ",\"CreationTimeUnixSec\":" ++ toString em.CreationTimeUnixSec ++
  ",\"OriginId\":" ++ jsonQuote em.OriginId ++ ",\"OriginIter\":" ++ toString em.OriginIter ++
  ",\"OriginGroupId\":" ++ jsonQuote em.OriginGroupId ++
  ",\"OriginBuildVersion\":" ++ jsonQuote em.OriginBuildVersion ++
  ",\"DestinationId\":" ++ jsonQuote em.DestinationId ++
  ",\"EventTimeUnixSec\":" ++ toString em.EventTimeUnixSec ++
  ",\"EventType\":" ++ jsonQuote em.EventType ++ ",\"EventSubtype\":" ++ jsonQuote em.EventSubtype ++
  ",\"EventVersion\":" ++ jsonQuote em.EventVersion ++
  ",\"PayloadJson\":" ++ jsonQuote em.PayloadJson ++ "\x7d"

/-- A clock reading and encoding/json at the sample inputs: the decoder knows sampleBody and
rejects every other text. -/
def sampleRuntime : Runtime :=
  { nowUnix := 1700000000
    nowUnixNano := 1700000000000000000
    jsonMarshal := sampleMarshal
    jsonMarshalList := fun ms => "[" ++ String.intercalate "," (ms.map sampleMarshal) ++ "]"
    jsonUnmarshal := fun data =>
      if data = sampleBody then .ok sampleBodyEvent
      else .error "invalid character" }

/-- A row of the events table with every nullable column set. -/
def sampleRow (id : Int) (destId eventType : String) : EventRow :=
  { id := id, event_id := "e", creation_time_unix_sec := some 1, origin_id := "o",
    origin_iter := some 1, origin_group_id := some "", origin_build_version := some "v1",
    destination_id := destId, destination_iter := none, event_time_unix_sec := some 1,
    event_type := some eventType, event_subtype := some "", event_version := some "1",
    payload_json := some "\x7b\x7d" }

/-- The table of the paging example: ids 10, 11, 12 for "d1" and one row for "d2". -/
def sampleTable : List EventRow :=
  [sampleRow 10 "d1" "temp", sampleRow 11 "d1" "door", sampleRow 20 "d2" "temp",
   sampleRow 12 "d1" "temp"]

/-- A store that answers every INSERT with id 7, no MQTT client. -/
def sampleStream : EventStream :=
  { Conn := { events := sampleTable, insertAnswer := fun _ => .ok 7 }
    MqttClient := none
    EventStreamId := "srv1"
    eventIdIter := 0 }

/-- The same store with an MQTT client whose publishes all fail. -/
def sampleStreamMqtt : EventStream :=
  { sampleStream with MqttClient := some ⟨fun _ _ _ _ => false⟩ }

/-- A handler over the sample snapshot and the sample store. -/
def sampleHandler : Handler := ⟨false, secureSample, sampleStream⟩

/-- An AddEvent request of an id the snapshot does not hold. -/
def requestUnknown : Request :=
  ⟨"POST", [("id", "zed"), ("p", "x")], .ok sampleBody⟩

/-- An AddEvent request that names origin "b", which has a credential, as the writer, and
origin "a", which has none, as the destination, and presents no credential. -/
def requestSpoof : Request :=
  ⟨"POST", [("id", "b"), ("destId", "a"), ("p", "")], .ok sampleBody⟩

/-- An AddEvent request that names "ghost", an id the snapshot does not hold, as the writer
and origin "a", which has no credential, as the destination, and presents no credential. -/
def requestGhost : Request :=
  ⟨"POST", [("id", "ghost"), ("destId", "a"), ("p", "")], .ok sampleBody⟩

/-- An AddEvent request of origin "a" to itself. -/
def requestSelf : Request :=
  ⟨"POST", [("id", "a"), ("p", "")], .ok sampleBody⟩

/-- A valid event with no destination. -/
def sampleEvent : EventMessage :=
  { Id := 99, EventId := "e1", CreationTimeUnixSec := 0, OriginId := "a", OriginIter := 1,
    OriginGroupId := "", OriginBuildVersion := "v1", DestinationId := "",
    EventTimeUnixSec := 5, EventType := "temp", EventSubtype := "", EventVersion := "1",
    PayloadJson := "" }

/-- A store of the package without destinations that answers every INSERT with id 7. -/
def sampleLegacyStream : Legacy.EventStream :=
  { insertAnswer := fun _ => .ok 7, MqttClient := none, EventStreamId := "srv1",
    eventIdIter := 0 }

/-- A valid event of the package without destinations, with no group and no payload. -/
def sampleLegacyEvent : Legacy.EventMessage :=
  { Id := 0, EventId := "e1", CreationTimeUnixSec := 0, OriginId := "a", OriginIter := 1,
    OriginGroupId := "", OriginBuildVersion := "v1", EventTimeUnixSec := 5,
    EventType := "temp", EventVersion := "1", PayloadJson := "" }

/-- A row as a writer that does not know the event_subtype column leaves it: NULL there. -/
def rowNullSubtype (id : Int) (destId eventType : String) : EventRow :=
  { sampleRow id destId eventType with event_subtype := none }

/-- The table of the paging example, ids 10, 11, 12 for "d1", where the row with id 10 has
no event_subtype. -/
def tableNullSubtype : List EventRow :=
  [rowNullSubtype 10 "d1" "temp", sampleRow 11 "d1" "door", sampleRow 12 "d1" "temp"]

/-- A store over that table. -/
def streamNullSubtype : EventStream :=
  { sampleStream with Conn := { events := tableNullSubtype, insertAnswer := fun _ => .ok 7 } }

/-- A read request of origin "a" that supplies every parameter. -/
def requestRead : Request :=
  ⟨"GET", [("id", "a"), ("p", ""), ("eventType", "temp"), ("limit", "5"), ("newestId", "3"),
           ("lastId", "9")], .ok ""⟩

/-- A read request of origin "a" that supplies the limit 0 and nothing else. -/
def requestReadZeroLimit : Request :=
  ⟨"GET", [("id", "a"), ("p", ""), ("limit", "0")], .ok ""⟩

/-- A request body with no OriginBuildVersion: the JSON text of an otherwise valid event. -/
def sampleBodyNoBuild : String :=
  "\x7b\"EventId\":\"e1\",\"EventType\":\"temp\",\"EventVersion\":\"1\"\x7d"

/-- What json.Unmarshal makes of sampleBodyNoBuild: every field the text does not name
keeps its zero value. -/
def sampleBodyNoBuildEvent : EventMessage :=
  { Id := 0, EventId := "e1", CreationTimeUnixSec := 0, OriginId := "", OriginIter := 0,
    OriginGroupId := "", OriginBuildVersion := "", DestinationId := "", EventTimeUnixSec := 0,
    EventType := "temp", EventSubtype := "", EventVersion := "1", PayloadJson := "" }

/-- The sample runtime with a decoder that also knows sampleBodyNoBuild. -/
def runtimeNoBuild : Runtime :=
  { sampleRuntime with
    jsonUnmarshal := fun data =>
      if data = sampleBodyNoBuild then .ok sampleBodyNoBuildEvent
      else sampleRuntime.jsonUnmarshal data }

/-- An AddEvent request of origin "a" to itself that gives no build version, with a body
that carries none either. -/
def requestNoBuild : Request :=
  ⟨"POST", [("id", "a"), ("p", "")], .ok sampleBodyNoBuild⟩

/-- The same request with the build version "v2" given as a parameter. -/
def requestWithBuild : Request :=
  ⟨"POST", [("id", "a"), ("p", ""), ("build", "v2")], .ok sampleBodyNoBuild⟩

/-- A snapshot in use: "a" has counted 17 requests and "b" has passed the limit. -/
def secureUsed : Secure :=
  ⟨5, 60, [("a", ⟨"a", "", 17⟩),
           ("b", ⟨"b", "5e884898da28047151d0e56f8dc6292773603d0d6aabbdd62a11ef721d1542d8", 61⟩)]⟩

/-- The origins table at a reload: "a" with no credential, "c" with one; "b" is gone. -/
def sampleOriginRows : List OriginRow :=
  [⟨"a", none⟩,
   ⟨"c", some "ba7816bf8f01cfea414140de5dae2223b00361a396177a9cb410ff61f20015ad"⟩]

/-! # Properties -/

set_option maxRecDepth 100000

/-! ## The digest -/

/-- The digest model agrees with SHA-256 on the standard test vectors: the empty message
and "abc". -/
theorem sha256Hex_test_vectors :
    sha256Hex "" = "e3b0c44298fc1c149afbf4c8996fb92427ae41e4649b934ca495991b7852b855" ∧
    sha256Hex "abc" = "ba7816bf8f01cfea414140de5dae2223b00361a396177a9cb410ff61f20015ad" := by
  decide

/-! ## The origin map -/

theorem OriginMap.get_eq_none_iff (m : OriginMap) (id : String) :
    m.get id = none ↔ id ∉ m.keys := by
  induction m with
  | nil => simp [OriginMap.get, OriginMap.keys]
  | cons kv rest ih =>
    obtain ⟨k, v⟩ := kv
    by_cases hk : k = id
    · simp [OriginMap.get, OriginMap.keys, hk]
    · have hk2 : ¬ id = k := fun h => hk h.symm
      simpa [OriginMap.get, OriginMap.keys, hk, hk2] using ih

theorem OriginMap.get_modify_same (m : OriginMap) (id : String)
    (f : SecureOrigin → SecureOrigin) :
    (m.modify id f).get id = (m.get id).map f := by
  induction m with
  | nil => simp [OriginMap.get, OriginMap.modify]
  | cons kv rest ih =>
    obtain ⟨k, v⟩ := kv
    by_cases hk : k = id
    · simp [OriginMap.get, OriginMap.modify, hk]
    · simpa [OriginMap.get, OriginMap.modify, hk] using ih

theorem OriginMap.get_modify_other (m : OriginMap) (id other : String)
    (f : SecureOrigin → SecureOrigin) (hne : other ≠ id) :
    (m.modify id f).get other = m.get other := by
  induction m with
  | nil => simp [OriginMap.get, OriginMap.modify]
  | cons kv rest ih =>
    obtain ⟨k, v⟩ := kv
    by_cases hk : k = id
    · subst hk
      have hko : ¬ k = other := fun h => hne h.symm
      simp [OriginMap.get, OriginMap.modify, hko]
    · by_cases hko : k = other
      · subst hko
        simp [OriginMap.get, OriginMap.modify, hk]
      · simpa [OriginMap.get, OriginMap.modify, hk, hko] using ih

theorem OriginMap.keys_modify (m : OriginMap) (id : String) (f : SecureOrigin → SecureOrigin) :
    (m.modify id f).keys = m.keys := by
  induction m with
  | nil => simp [OriginMap.modify, OriginMap.keys]
  | cons kv rest ih =>
    obtain ⟨k, v⟩ := kv
    by_cases hk : k = id
    · simp [OriginMap.modify, OriginMap.keys, hk]
    · simpa [OriginMap.modify, OriginMap.keys, hk] using ih

/-! ## Secure.Check -/

theorem Secure.Check_unknown (s : Secure) (id pass : String) (h : s.Origins.get id = none) :
    s.Check id pass = (⟨false, none, "BLOCKED: unknown origin id"⟩, s) := by
  simp [Secure.Check, h]

theorem Secure.Check_over_limit (s : Secure) (id pass : String) (d : SecureOrigin)
    (h : s.Origins.get id = some d) (hlim : d.ReqsLastMin > s.MaxRequestsPerMin) :
    s.Check id pass =
      (⟨false, some "maximum requests reached", "BLOCKED: maximum number of requests reached"⟩,
        s) := by
  simp [Secure.Check, h, hlim]

theorem Secure.Check_wrong_pass (s : Secure) (id pass : String) (d : SecureOrigin)
    (h : s.Origins.get id = some d) (hlim : ¬ d.ReqsLastMin > s.MaxRequestsPerMin)
    (hne : d.PassHash ≠ "") (hbad : d.PassHash ≠ sha256Hex pass) :
    s.Check id pass = (⟨false, some "invalid password", "BLOCKED: invalid password"⟩, s) := by
  simp [Secure.Check, h, hlim, hne, hbad]

theorem Secure.Check_allowed (s : Secure) (id pass : String) (d : SecureOrigin)
    (h : s.Origins.get id = some d) (hlim : ¬ d.ReqsLastMin > s.MaxRequestsPerMin)
    (hpass : d.PassHash = "" ∨ d.PassHash = sha256Hex pass) :
    s.Check id pass =
      (⟨true, none, ""⟩, { s with Origins := s.Origins.modify id SecureOrigin.addRequest }) := by
  have hcond : ¬ (d.PassHash ≠ "" ∧ d.PassHash ≠ sha256Hex pass) := by
    rintro ⟨h1, h2⟩
    rcases hpass with hp | hp
    · exact h1 hp
    · exact h2 hp
  simp only [Secure.Check, h, hlim, hcond, if_false]

theorem wrapInt64_of_range (x : Int) (hlo : -(2 ^ 63) ≤ x) (hhi : x < 2 ^ 63) :
    wrapInt64 x = x := by
  unfold wrapInt64
  have h : (x + 2 ^ 63) % 2 ^ 64 = x + 2 ^ 63 := Int.emod_eq_of_lt (by omega) (by omega)
  omega

/-- Successive calls below the limit: from counter c, every one of k calls with
c + k ≤ MaxRequestsPerMin + 1 is allowed, the i-th of them leaving the counter at c + i + 1. -/
theorem Secure.CheckSeq_allowed (passes : List String) :
    ∀ (s : Secure) (id : String) (d : SecureOrigin),
      s.Origins.get id = some d → d.PassHash = "" → 0 ≤ d.ReqsLastMin →
      d.ReqsLastMin + passes.length ≤ s.MaxRequestsPerMin + 1 →
      s.MaxRequestsPerMin + 1 < 2 ^ 63 →
      (s.CheckSeq id passes).1.length = passes.length ∧
      (∀ i : Nat, i < passes.length →
        (s.CheckSeq id passes).1[i]? =
          some (⟨true, none, ""⟩, some (d.ReqsLastMin + i + 1))) ∧
      (s.CheckSeq id passes).2.MaxRequestsPerMin = s.MaxRequestsPerMin ∧
      (s.CheckSeq id passes).2.Origins.get id =
        some { d with ReqsLastMin := d.ReqsLastMin + passes.length } := by
  induction passes with
  | nil =>
    intro s id d hget _ _ _ _
    simp [Secure.CheckSeq, hget]
  | cons p rest ih =>
    intro s id d hget hempty h0 hlim hmax
    have hlen : ((p :: rest).length : Int) = (rest.length : Int) + 1 := by simp
    rw [hlen] at hlim
    have hnot : ¬ d.ReqsLastMin > s.MaxRequestsPerMin := by
      have := Int.ofNat_nonneg rest.length
      omega
    have hstep := Secure.Check_allowed s id p d hget hnot (Or.inl hempty)
    have hwrap : wrapInt64 (d.ReqsLastMin + 1) = d.ReqsLastMin + 1 :=
      wrapInt64_of_range _ (by omega) (by have := Int.ofNat_nonneg rest.length; omega)
    have hget2 : (s.Check id p).2.Origins.get id
        = some { d with ReqsLastMin := d.ReqsLastMin + 1 } := by
      rw [hstep]
      simp [OriginMap.get_modify_same, hget, SecureOrigin.addRequest, hwrap]
    have hmax2 : (s.Check id p).2.MaxRequestsPerMin = s.MaxRequestsPerMin := by
      rw [hstep]
    obtain ⟨ih1, ih2, ih3, ih4⟩ := ih (s.Check id p).2 id
      { d with ReqsLastMin := d.ReqsLastMin + 1 } hget2 hempty (by simp; omega)
      (by rw [hmax2]; simp; omega) (by rw [hmax2]; exact hmax)
    refine ⟨by simp [Secure.CheckSeq, ih1], ?_, ?_, ?_⟩
    · intro i hi
      cases i with
      | zero =>
        simp [Secure.CheckSeq, hget2]
        rw [hstep]
      | succ j =>
        have hj : j < rest.length := by simpa using hi
        have := ih2 j hj
        simp only [Secure.CheckSeq, List.getElem?_cons_succ, this]
        simp
        omega
    · simp only [Secure.CheckSeq, ih3, hmax2]
    · simp only [Secure.CheckSeq, ih4]
      simp
      omega

/-- What the code does at the limit, for every limit N with N + 1 within int64: an
origin with no credential and counter 0 is allowed N + 1 successive calls, the counter going
1, 2, .., N + 1, and only the call after those is blocked. -/
theorem Secure.Check_allows_one_more_than_max (s : Secure) (id : String) (d : SecureOrigin)
    (passes : List String) (pass : String)
    (hget : s.Origins.get id = some d) (hempty : d.PassHash = "") (h0 : d.ReqsLastMin = 0)
    (hmax : s.MaxRequestsPerMin + 1 < 2 ^ 63)
    (hlen : (passes.length : Int) = s.MaxRequestsPerMin + 1) :
    (∀ i : Nat, i < passes.length →
        (s.CheckSeq id passes).1[i]? = some (⟨true, none, ""⟩, some ((i : Int) + 1))) ∧
    ((s.CheckSeq id passes).2.Check id pass).1 =
      ⟨false, some "maximum requests reached", "BLOCKED: maximum number of requests reached"⟩ := by
  obtain ⟨_, h2, h3, h4⟩ := Secure.CheckSeq_allowed passes s id d hget hempty (by omega)
    (by omega) hmax
  refine ⟨?_, ?_⟩
  · intro i hi
    rw [h2 i hi, h0]
    simp
  · rw [Secure.Check_over_limit _ id pass _ h4 (by rw [h3]; simp; omega)]

/-- C1 (the code departs from the claim): with MaxRequestsPerMin = 60, the limit main.go
configures, and an origin with no credential and counter 0, sixty-one successive Check calls
are all allowed, the counter going 1, 2, .., 61; the sixty-first call, which the claim says is
blocked, is allowed, and it is the sixty-second that returns "maximum requests reached". -/
theorem C1_sixty_first_check_is_allowed :
    (secureSixty.CheckSeq "a" (List.replicate 61 "")).1 =
      (List.range 61).map (fun i => ((⟨true, none, ""⟩ : CheckResult), some ((i : Int) + 1))) ∧
    ((secureSixty.CheckSeq "a" (List.replicate 61 "")).1[60]?).map (fun r => r.1.ok) = some true ∧
    ((secureSixty.CheckSeq "a" (List.replicate 61 "")).2.Check "a" "").1 =
      ⟨false, some "maximum requests reached", "BLOCKED: maximum number of requests reached"⟩ := by
  decide

/-- C2: for an origin present in the snapshot, Check decides in this order. A counter above
MaxRequestsPerMin blocks with "maximum requests reached" whatever the credential; otherwise
a non-empty PassHash that differs from the lowercase hex SHA-256 digest of the credential
blocks with "invalid password"; otherwise the call is allowed. An origin with an empty
PassHash under the limit is allowed for every credential, the empty one included. -/
theorem C2_check_decision_order (s : Secure) (id pass : String) (d : SecureOrigin)
    (hget : s.Origins.get id = some d) :
    (d.ReqsLastMin > s.MaxRequestsPerMin →
      (s.Check id pass).1 =
        ⟨false, some "maximum requests reached",
          "BLOCKED: maximum number of requests reached"⟩) ∧
    (¬ d.ReqsLastMin > s.MaxRequestsPerMin → d.PassHash ≠ "" → d.PassHash ≠ sha256Hex pass →
      (s.Check id pass).1 = ⟨false, some "invalid password", "BLOCKED: invalid password"⟩) ∧
    (¬ d.ReqsLastMin > s.MaxRequestsPerMin → (d.PassHash = "" ∨ d.PassHash = sha256Hex pass) →
      (s.Check id pass).1 = ⟨true, none, ""⟩) ∧
    (¬ d.ReqsLastMin > s.MaxRequestsPerMin → d.PassHash = "" →
      (∀ p : String, (s.Check id p).1 = ⟨true, none, ""⟩) ∧
        (s.Check id "").1 = ⟨true, none, ""⟩) := by
  refine ⟨?_, ?_, ?_, ?_⟩
  · intro hlim
    rw [Secure.Check_over_limit s id pass d hget hlim]
  · intro hlim hne hbad
    rw [Secure.Check_wrong_pass s id pass d hget hlim hne hbad]
  · intro hlim hpass
    rw [Secure.Check_allowed s id pass d hget hlim hpass]
  · intro hlim hempty
    refine ⟨fun p => ?_, ?_⟩
    · rw [Secure.Check_allowed s id p d hget hlim (Or.inl hempty)]
    · rw [Secure.Check_allowed s id "" d hget hlim (Or.inl hempty)]

/-- C2 at a concrete snapshot: origin "b" holds the digest of "password"; presenting
"password" is allowed, and the hypothesis of the theorem holds there. -/
theorem C2_check_decision_order_witness :
    secureSample.Origins.get "b" =
        some ⟨"b", "5e884898da28047151d0e56f8dc6292773603d0d6aabbdd62a11ef721d1542d8", 0⟩ ∧
      (secureSample.Check "b" "password").1 = ⟨true, none, ""⟩ :=
  ⟨by decide,
    (C2_check_decision_order secureSample "b" "password"
      ⟨"b", "5e884898da28047151d0e56f8dc6292773603d0d6aabbdd62a11ef721d1542d8", 0⟩
      (by decide)).2.2.1 (by decide) (Or.inr (by decide))⟩

/-- C3: for an id that is not a key of the snapshot, Check returns not allowed with the
reason "unknown origin id" for every credential and leaves the whole state, every counter
included, as it was; on a snapshot that was never loaded (no origins) this holds for every id. -/
theorem C3_unknown_origin_blocked (s : Secure) (id pass : String) :
    (id ∉ s.Origins.keys →
      (s.Check id pass).1 = ⟨false, none, "BLOCKED: unknown origin id"⟩ ∧
      (s.Check id pass).2 = s) ∧
    (s.Origins = [] →
      (s.Check id pass).1.ok = false ∧
      (s.Check id pass).1 = ⟨false, none, "BLOCKED: unknown origin id"⟩ ∧
      (s.Check id pass).2 = s) := by
  refine ⟨?_, ?_⟩
  · intro hkey
    rw [Secure.Check_unknown s id pass ((OriginMap.get_eq_none_iff _ _).2 hkey)]
    exact ⟨rfl, rfl⟩
  · intro hnil
    have hget : s.Origins.get id = none := by rw [hnil]; rfl
    rw [Secure.Check_unknown s id pass hget]
    exact ⟨rfl, rfl, rfl⟩

/-- C3 at concrete inputs: "zed" is not an origin of the sample snapshot, and the unloaded
Secure has no origins. -/
theorem C3_unknown_origin_blocked_witness :
    ("zed" ∉ secureSample.Origins.keys ∧
      (secureSample.Check "zed" "password").1 = ⟨false, none, "BLOCKED: unknown origin id"⟩ ∧
      (secureSample.Check "zed" "password").2 = secureSample) ∧
    (secureUnloaded.Origins = [] ∧ (secureUnloaded.Check "a" "").1.ok = false) :=
  ⟨⟨by decide, (C3_unknown_origin_blocked secureSample "zed" "password").1 (by decide)⟩,
    ⟨rfl, ((C3_unknown_origin_blocked secureUnloaded "a" "").2 rfl).1⟩⟩

/-! ## The handlers and the access check -/

/-- C4: an AddEvent or GetOriginEvents request other than OPTIONS for which Check does not
return allowed is answered 401 "not authorized" and makes no call to the store or to MQTT
(no insert, no select, no publish); whenever a handler call did reach the store, Check had
returned allowed for the destination id and the credential of the request. -/
theorem C4_blocked_request_reaches_no_store (rt : Runtime) (h : Handler) (r : Request) :
    (r.Method ≠ "OPTIONS" →
      (h.Secure.Check (addEventDestId r) (r.FormValue "p")).1.ok = false →
      (h.AddEvent rt r).resp = httpError "not authorized" 401 ∧ (h.AddEvent rt r).trace = []) ∧
    (r.Method ≠ "OPTIONS" →
      (h.Secure.Check (r.FormValue "id") (r.FormValue "p")).1.ok = false →
      (h.GetOriginEvents rt r).resp = httpError "not authorized" 401 ∧
        (h.GetOriginEvents rt r).trace = []) ∧
    ((h.AddEvent rt r).trace ≠ [] →
      (h.Secure.Check (addEventDestId r) (r.FormValue "p")).1.ok = true) ∧
    ((h.GetOriginEvents rt r).trace ≠ [] →
      (h.Secure.Check (r.FormValue "id") (r.FormValue "p")).1.ok = true) := by
  refine ⟨?_, ?_, ?_, ?_⟩
  · intro hm hblocked
    simp [Handler.AddEvent, hm, hblocked]
  · intro hm hblocked
    simp [Handler.GetOriginEvents, hm, hblocked]
  · intro htrace
    by_contra hok
    have hblocked : (h.Secure.Check (addEventDestId r) (r.FormValue "p")).1.ok = false := by
      simpa using hok
    apply htrace
    by_cases hm : r.Method = "OPTIONS"
    · simp [Handler.AddEvent, hm]
    · simp [Handler.AddEvent, hm, hblocked]
  · intro htrace
    by_contra hok
    have hblocked : (h.Secure.Check (r.FormValue "id") (r.FormValue "p")).1.ok = false := by
      simpa using hok
    apply htrace
    by_cases hm : r.Method = "OPTIONS"
    · simp [Handler.GetOriginEvents, hm]
    · simp [Handler.GetOriginEvents, hm, hblocked]

/-- C4 at a concrete request: id "zed" is unknown to the sample snapshot, so both handlers
answer 401 and touch nothing. -/
theorem C4_blocked_request_reaches_no_store_witness :
    (requestUnknown.Method ≠ "OPTIONS" ∧
      (sampleHandler.Secure.Check (addEventDestId requestUnknown)
        (requestUnknown.FormValue "p")).1.ok = false ∧
      (sampleHandler.AddEvent sampleRuntime requestUnknown).resp = ⟨401, "not authorized\n"⟩ ∧
      (sampleHandler.AddEvent sampleRuntime requestUnknown).trace = []) ∧
    ((sampleHandler.GetOriginEvents sampleRuntime requestUnknown).resp
        = ⟨401, "not authorized\n"⟩ ∧
      (sampleHandler.GetOriginEvents sampleRuntime requestUnknown).trace = []) :=
  ⟨⟨by decide, by decide,
    (C4_blocked_request_reaches_no_store sampleRuntime sampleHandler requestUnknown).1
      (by decide) (by decide)⟩,
   (C4_blocked_request_reaches_no_store sampleRuntime sampleHandler requestUnknown).2.1
      (by decide) (by decide)⟩

theorem Secure.Check_ok_err (s : Secure) (id pass : String)
    (hok : (s.Check id pass).1.ok = true) : (s.Check id pass).1.err = none := by
  unfold Secure.Check at hok ⊢
  split
  · rfl
  · split
    · simp_all
    · split
      · simp_all
      · rfl

/-! ## SaveMessage -/

/-- The five fields SaveMessage requires. -/
theorem EventStream.SaveMessage_invalid (rt : Runtime) (es : EventStream) (em : EventMessage)
    (hbad : em.EventId = "" ∨ em.OriginId = "" ∨ em.OriginBuildVersion = "" ∨
      em.EventType = "" ∨ em.EventVersion = "") :
    (es.SaveMessage rt em).em = em ∧ (es.SaveMessage rt em).err ≠ none ∧
      (es.SaveMessage rt em).trace = [] := by
  unfold EventStream.SaveMessage
  by_cases h1 : em.EventId = ""
  · simp [h1]
  · by_cases h2 : em.OriginId = "" ∨ em.OriginBuildVersion = ""
    · simp [h1, h2]
    · by_cases h3 : em.EventType = "" ∨ em.EventVersion = ""
      · simp [h1, h2, h3]
      · exfalso
        rcases hbad with h | h | h | h | h
        · exact h1 h
        · exact h2 (Or.inl h)
        · exact h2 (Or.inr h)
        · exact h3 (Or.inl h)
        · exact h3 (Or.inr h)

/-- On an event that passes validation SaveMessage sends one INSERT and returns according
to the answer of the store. -/
theorem EventStream.SaveMessage_valid (rt : Runtime) (es : EventStream) (em : EventMessage)
    (h1 : em.EventId ≠ "") (h2 : em.OriginId ≠ "") (h3 : em.OriginBuildVersion ≠ "")
    (h4 : em.EventType ≠ "") (h5 : em.EventVersion ≠ "") :
    es.SaveMessage rt em =
      match es.Conn.insertAnswer (insertParamsOf (prepareForInsert rt em)) with
      | .error e =>
        ⟨prepareForInsert rt em, some e, [Effect.insert (insertParamsOf (prepareForInsert rt em))]⟩
      | .ok id =>
        if id = 0 then
          ⟨{ prepareForInsert rt em with Id := id },
            some "error inserting event in database, no Id returned",
            [Effect.insert (insertParamsOf (prepareForInsert rt em))]⟩
        else
          ⟨{ prepareForInsert rt em with Id := id }, none,
            Effect.insert (insertParamsOf (prepareForInsert rt em)) ::
              es.publishLastEvent rt { prepareForInsert rt em with Id := id }⟩ := by
  simp only [EventStream.SaveMessage, h1, h2, h3, h4, h5, or_self, if_false]

theorem EventStream.publishLastEvent_no_insert (rt : Runtime) (es : EventStream)
    (em : EventMessage) (p : InsertParams) : Effect.insert p ∉ es.publishLastEvent rt em := by
  unfold EventStream.publishLastEvent
  cases es.MqttClient <;> simp

/-- Every INSERT in the trace of SaveMessage binds the prepared event, and the event had
passed validation. -/
theorem EventStream.SaveMessage_insert_mem (rt : Runtime) (es : EventStream) (em : EventMessage)
    (p : InsertParams) (hp : Effect.insert p ∈ (es.SaveMessage rt em).trace) :
    p = insertParamsOf (prepareForInsert rt em) ∧ em.OriginId ≠ "" := by
  by_cases hbad : em.EventId = "" ∨ em.OriginId = "" ∨ em.OriginBuildVersion = "" ∨
      em.EventType = "" ∨ em.EventVersion = ""
  · rw [(EventStream.SaveMessage_invalid rt es em hbad).2.2] at hp
    simp at hp
  · simp only [not_or] at hbad
    obtain ⟨h1, h2, h3, h4, h5⟩ := hbad
    rw [EventStream.SaveMessage_valid rt es em h1 h2 h3 h4 h5] at hp
    refine ⟨?_, h2⟩
    cases hans : es.Conn.insertAnswer (insertParamsOf (prepareForInsert rt em)) with
    | error e =>
      rw [hans] at hp
      simpa using hp
    | ok id =>
      rw [hans] at hp
      by_cases hid : id = 0
      · simpa [hid] using hp
      · simp only [hid, if_false, List.mem_cons, Effect.insert.injEq] at hp
        rcases hp with hp | hp
        · exact hp
        · exact absurd hp (EventStream.publishLastEvent_no_insert rt es _ p)

/-! ## AddEvent after the access check -/

/-- An authorised AddEvent whose body is read and decoded answers from the outcome of
SaveMessage on the event of addEventMessage. -/
theorem Handler.AddEvent_authorised (rt : Runtime) (h : Handler) (r : Request) (data : String)
    (event0 : EventMessage) (hm : r.Method ≠ "OPTIONS")
    (hok : (h.Secure.Check (addEventDestId r) (r.FormValue "p")).1.ok = true)
    (hbody : readBody r = .ok data) (hjson : rt.jsonUnmarshal data = .ok event0) :
    h.AddEvent rt r =
      if (h.EventStream.SaveMessage rt (addEventMessage r event0)).err ≠ none then
        ⟨httpError "error saving event" 500,
          (h.Secure.Check (addEventDestId r) (r.FormValue "p")).2,
          (h.EventStream.SaveMessage rt (addEventMessage r event0)).trace⟩
      else
        ⟨⟨200, jsonIdObj (h.EventStream.SaveMessage rt (addEventMessage r event0)).em.Id⟩,
          (h.Secure.Check (addEventDestId r) (r.FormValue "p")).2,
          (h.EventStream.SaveMessage rt (addEventMessage r event0)).trace⟩ := by
  have herr := Secure.Check_ok_err _ _ _ hok
  simp only [Handler.AddEvent, hm, hok, herr, hbody, hjson, if_false, ne_eq,
    not_true_eq_false, Bool.true_eq_false]

/-- C5 (the code departs from the claim): a request that names "ghost", an id the snapshot
does not hold, as the writer and origin "a" as the destination, with no credential, passes the
access check, because Check is called for the destination "a" only; it is answered 200 and
the event is inserted with origin_id "ghost", although Check for "ghost" with the presented
credential is blocked ("unknown origin id"). In the same way a request that names origin "b"
as the writer is inserted with origin_id "b", although Check for "b" with the presented
credential is blocked ("invalid password"). The OriginId saved is not an id for which Check
verified the credential. -/
theorem C5_origin_id_is_not_checked :
    (sampleHandler.AddEvent sampleRuntime requestGhost).resp = ⟨200, jsonIdObj 7⟩ ∧
    (sampleHandler.AddEvent sampleRuntime requestGhost).trace =
      [Effect.insert
        { event_id := "e1", creation_time_unix_sec := 1700000000, origin_id := "ghost",
          origin_iter := 1, origin_group_id := "", origin_build_version := "v1",
          destination_id := "a", event_time_unix_sec := 5, event_type := "temp",
          event_subtype := "", event_version := "1", payload_json := "\x7b\x7d" }] ∧
    addEventDestId requestGhost = "a" ∧
    "ghost" ∉ sampleHandler.Secure.Origins.keys ∧
    (sampleHandler.Secure.Check "a" (requestGhost.FormValue "p")).1.ok = true ∧
    (sampleHandler.Secure.Check "ghost" (requestGhost.FormValue "p")).1 =
      ⟨false, none, "BLOCKED: unknown origin id"⟩ ∧
    (sampleHandler.AddEvent sampleRuntime requestSpoof).resp = ⟨200, jsonIdObj 7⟩ ∧
    (sampleHandler.AddEvent sampleRuntime requestSpoof).trace =
      [Effect.insert
        { event_id := "e1", creation_time_unix_sec := 1700000000, origin_id := "b",
          origin_iter := 1, origin_group_id := "", origin_build_version := "v1",
          destination_id := "a", event_time_unix_sec := 5, event_type := "temp",
          event_subtype := "", event_version := "1", payload_json := "\x7b\x7d" }] ∧
    addEventDestId requestSpoof = "a" ∧
    (sampleHandler.Secure.Check "a" (requestSpoof.FormValue "p")).1.ok = true ∧
    (sampleHandler.Secure.Check "b" (requestSpoof.FormValue "p")).1 =
      ⟨false, some "invalid password", "BLOCKED: invalid password"⟩ := by
  decide

/-- Where the two ids of a saved event come from: for every AddEvent request that passes the
access check and whose body is read and decoded, the event handed to SaveMessage has as
DestinationId the id for which Check verified the presented credential (the destId parameter,
or the id parameter when destId is empty) and as OriginId the id parameter of the request,
which is the verified id when destId is empty; every INSERT of the request binds these two
values; and neither depends on the OriginId and DestinationId of the body: a request whose
body differs only in those two fields has the same outcome. -/
theorem Handler.AddEvent_ids_come_from_the_request_parameters (rt : Runtime) (h : Handler) (r : Request)
    (data : String) (event0 : EventMessage) (hm : r.Method ≠ "OPTIONS")
    (hok : (h.Secure.Check (addEventDestId r) (r.FormValue "p")).1.ok = true)
    (hbody : readBody r = .ok data) (hjson : rt.jsonUnmarshal data = .ok event0) :
    (h.AddEvent rt r).trace = (h.EventStream.SaveMessage rt (addEventMessage r event0)).trace ∧
    (addEventMessage r event0).DestinationId = addEventDestId r ∧
    (addEventMessage r event0).OriginId = r.FormValue "id" ∧
    (r.FormValue "destId" = "" → (addEventMessage r event0).OriginId = addEventDestId r) ∧
    (∀ p : InsertParams, Effect.insert p ∈ (h.AddEvent rt r).trace →
      p.origin_id = r.FormValue "id" ∧ p.destination_id = addEventDestId r) ∧
    (∀ (r2 : Request) (data2 : String) (o d : String),
      r2.Method = r.Method → r2.Form = r.Form → readBody r2 = .ok data2 →
      rt.jsonUnmarshal data2 = .ok { event0 with OriginId := o, DestinationId := d } →
      h.AddEvent rt r2 = h.AddEvent rt r) := by
  have hrun := Handler.AddEvent_authorised rt h r data event0 hm hok hbody hjson
  have htrace : (h.AddEvent rt r).trace
      = (h.EventStream.SaveMessage rt (addEventMessage r event0)).trace := by
    rw [hrun]
    split <;> rfl
  refine ⟨htrace, rfl, rfl, ?_, ?_, ?_⟩
  · intro hd
    simp [addEventMessage, addEventDestId, hd]
  · intro p hp
    rw [htrace] at hp
    obtain ⟨hpeq, horigin⟩ := EventStream.SaveMessage_insert_mem rt _ _ p hp
    have ho : (addEventMessage r event0).OriginId = r.FormValue "id" := rfl
    have hdst : (addEventMessage r event0).DestinationId = addEventDestId r := rfl
    subst hpeq
    refine ⟨?_, ?_⟩
    · rw [← ho]
      simp only [insertParamsOf, prepareForInsert]
      split <;> rfl
    by_cases hempty : addEventDestId r = ""
    · exfalso
      apply horigin
      rw [ho]
      unfold addEventDestId at hempty
      by_cases hd : r.FormValue "destId" = ""
      · simpa [hd] using hempty
      · simp [hd] at hempty
    · simp [insertParamsOf, prepareForInsert, hdst, hempty]
  · intro r2 data2 o d hm2 hf2 hbody2 hjson2
    have hfv : ∀ k, r2.FormValue k = r.FormValue k := by
      intro k
      simp [Request.FormValue, hf2]
    have hdest : addEventDestId r2 = addEventDestId r := by
      simp [addEventDestId, hfv]
    have hmsg : addEventMessage r2 { event0 with OriginId := o, DestinationId := d }
        = addEventMessage r event0 := by
      simp [addEventMessage, hfv, hdest]
    rw [Handler.AddEvent_authorised rt h r2 data2 _ (by rw [hm2]; exact hm)
      (by rw [hdest, hfv]; exact hok) hbody2 hjson2, hrun, hmsg, hdest, hfv]

/-- The two ids at a concrete request: origin "a" writes to itself; the request passes the
check, and the inserted row carries "a" as origin and as destination. -/
theorem Handler.AddEvent_ids_come_from_the_request_parameters_example :
    requestSelf.Method ≠ "OPTIONS" ∧
    (sampleHandler.Secure.Check (addEventDestId requestSelf)
      (requestSelf.FormValue "p")).1.ok = true ∧
    (∀ p : InsertParams,
      Effect.insert p ∈ (sampleHandler.AddEvent sampleRuntime requestSelf).trace →
      p.origin_id = "a" ∧ p.destination_id = "a") :=
  ⟨by decide, by decide,
    (Handler.AddEvent_ids_come_from_the_request_parameters sampleRuntime sampleHandler
      requestSelf sampleBody sampleBodyEvent (by decide) (by decide) rfl rfl).2.2.2.2.1⟩

theorem EventStream.SaveMessage_valid_trace_ne_nil (rt : Runtime) (es : EventStream)
    (em : EventMessage) (h1 : em.EventId ≠ "") (h2 : em.OriginId ≠ "")
    (h3 : em.OriginBuildVersion ≠ "") (h4 : em.EventType ≠ "") (h5 : em.EventVersion ≠ "") :
    (es.SaveMessage rt em).trace ≠ [] := by
  rw [EventStream.SaveMessage_valid rt es em h1 h2 h3 h4 h5]
  cases es.Conn.insertAnswer (insertParamsOf (prepareForInsert rt em)) with
  | error e => simp
  | ok id =>
    by_cases hid : id = 0
    · simp [hid]
    · simp [hid]

theorem Legacy.EventStream.SaveMessage_rejects_iff (nowUnix : Int)
    (jsonMarshal : Legacy.EventMessage → String) (es : Legacy.EventStream)
    (em : Legacy.EventMessage) :
    ((es.SaveMessage nowUnix jsonMarshal em).err ≠ none ∧
        (es.SaveMessage nowUnix jsonMarshal em).trace = []) ↔
      (em.EventId = "" ∨ em.OriginId = "" ∨ em.OriginBuildVersion = "" ∨
        em.EventType = "" ∨ em.EventVersion = "") := by
  unfold Legacy.EventStream.SaveMessage
  by_cases h1 : em.EventId = ""
  · simp [h1]
  · by_cases h2 : em.OriginId = ""
    · simp [h1, h2]
    · by_cases h3 : em.OriginBuildVersion = ""
      · simp [h1, h2, h3]
      · by_cases h4 : em.EventType = ""
        · simp [h1, h2, h3, h4]
        · by_cases h5 : em.EventVersion = ""
          · simp [h1, h2, h3, h4, h5]
          · simp only [h1, h2, h3, h4, h5, or_self, if_false, iff_false, not_and]
            intro _
            cases es.insertAnswer _ with
            | error e => simp
            | ok id =>
              by_cases hid : id = 0
              · simp [hid]
              · cases es.MqttClient <;> simp [hid]

/-- C6: SaveMessage returns an error with no call to the store and no publish exactly when
one of EventId, OriginId, OriginBuildVersion, EventType, EventVersion is empty, in the
go-server package and in the package without destinations alike; with those five set, an
empty DestinationId, EventSubtype, OriginGroupId and payload do not stop the INSERT from
being sent. -/
theorem C6_validation_rejects_exactly_the_five_fields (rt : Runtime) (es : EventStream)
    (em : EventMessage) (les : Legacy.EventStream) (lem : Legacy.EventMessage) :
    (((es.SaveMessage rt em).err ≠ none ∧ (es.SaveMessage rt em).trace = []) ↔
      (em.EventId = "" ∨ em.OriginId = "" ∨ em.OriginBuildVersion = "" ∨
        em.EventType = "" ∨ em.EventVersion = "")) ∧
    (((les.SaveMessage rt.nowUnix (fun m => m.EventId) lem).err ≠ none ∧
        (les.SaveMessage rt.nowUnix (fun m => m.EventId) lem).trace = []) ↔
      (lem.EventId = "" ∨ lem.OriginId = "" ∨ lem.OriginBuildVersion = "" ∨
        lem.EventType = "" ∨ lem.EventVersion = "")) ∧
    (em.EventId ≠ "" → em.OriginId ≠ "" → em.OriginBuildVersion ≠ "" → em.EventType ≠ "" →
      em.EventVersion ≠ "" →
      Effect.insert (insertParamsOf (prepareForInsert rt
          { em with DestinationId := "", EventSubtype := "", OriginGroupId := "",
                    PayloadJson := "" })) ∈
        (es.SaveMessage rt { em with DestinationId := "", EventSubtype := "",
                                     OriginGroupId := "", PayloadJson := "" }).trace) := by
  refine ⟨⟨?_, ?_⟩, Legacy.EventStream.SaveMessage_rejects_iff _ _ les lem, ?_⟩
  · rintro ⟨_, htrace⟩
    by_contra hgood
    simp only [not_or] at hgood
    obtain ⟨h1, h2, h3, h4, h5⟩ := hgood
    exact EventStream.SaveMessage_valid_trace_ne_nil rt es em h1 h2 h3 h4 h5 htrace
  · intro hbad
    exact (EventStream.SaveMessage_invalid rt es em hbad).2
  · intro h1 h2 h3 h4 h5
    rw [EventStream.SaveMessage_valid rt es
      { em with DestinationId := "", EventSubtype := "", OriginGroupId := "",
                PayloadJson := "" } h1 h2 h3 h4 h5]
    cases es.Conn.insertAnswer _ with
    | error e => simp
    | ok id =>
      by_cases hid : id = 0
      · simp [hid]
      · simp [hid]

/-- C6 at a concrete event: the sample event has the five fields set and no destination,
subtype, group or payload, and its INSERT is sent. -/
theorem C6_validation_rejects_exactly_the_five_fields_witness :
    sampleEvent.EventId ≠ "" ∧ sampleEvent.OriginId ≠ "" ∧
    Effect.insert (insertParamsOf (prepareForInsert sampleRuntime
        { sampleEvent with DestinationId := "", EventSubtype := "", OriginGroupId := "",
                           PayloadJson := "" })) ∈
      (sampleStream.SaveMessage sampleRuntime
        { sampleEvent with DestinationId := "", EventSubtype := "", OriginGroupId := "",
                           PayloadJson := "" }).trace :=
  ⟨by decide, by decide,
    (C6_validation_rejects_exactly_the_five_fields sampleRuntime sampleStream sampleEvent
      sampleLegacyStream sampleLegacyEvent).2.2
      (by decide) (by decide) (by decide) (by decide) (by decide)⟩

/-- C7: for an event that passes validation the error and the id SaveMessage returns follow
from the answer of the store to the INSERT alone: the error of the store when the INSERT
fails, "no Id returned" when it answers id 0, and otherwise success with exactly the id of
the store, whatever Id the caller supplied. The results are the same for every MQTT client,
absent, succeeding or failing, and SaveMessage never returns success with Id = 0. -/
theorem C7_result_follows_the_insert_answer (rt : Runtime) (es : EventStream)
    (em : EventMessage) :
    (em.EventId ≠ "" → em.OriginId ≠ "" → em.OriginBuildVersion ≠ "" → em.EventType ≠ "" →
      em.EventVersion ≠ "" →
      (∀ e, es.Conn.insertAnswer (insertParamsOf (prepareForInsert rt em)) = .error e →
        (es.SaveMessage rt em).err = some e) ∧
      (es.Conn.insertAnswer (insertParamsOf (prepareForInsert rt em)) = .ok 0 →
        (es.SaveMessage rt em).err =
          some "error inserting event in database, no Id returned") ∧
      (∀ id, id ≠ 0 →
        es.Conn.insertAnswer (insertParamsOf (prepareForInsert rt em)) = .ok id →
        (es.SaveMessage rt em).err = none ∧ (es.SaveMessage rt em).em.Id = id)) ∧
    (∀ mq : Option MqttClient,
      ({ es with MqttClient := mq }.SaveMessage rt em).err = (es.SaveMessage rt em).err ∧
      ({ es with MqttClient := mq }.SaveMessage rt em).em = (es.SaveMessage rt em).em) ∧
    ((es.SaveMessage rt em).err = none → (es.SaveMessage rt em).em.Id ≠ 0) := by
  refine ⟨?_, ?_, ?_⟩
  · intro h1 h2 h3 h4 h5
    rw [EventStream.SaveMessage_valid rt es em h1 h2 h3 h4 h5]
    refine ⟨?_, ?_, ?_⟩
    · intro e he
      rw [he]
    · intro h0
      rw [h0]
      rfl
    · intro id hid hans
      rw [hans]
      simp [hid]
  · intro mq
    by_cases hbad : em.EventId = "" ∨ em.OriginId = "" ∨ em.OriginBuildVersion = "" ∨
        em.EventType = "" ∨ em.EventVersion = ""
    · unfold EventStream.SaveMessage
      by_cases h1 : em.EventId = ""
      · simp [h1]
      · by_cases h2 : em.OriginId = "" ∨ em.OriginBuildVersion = ""
        · simp [h1, h2]
        · by_cases h3 : em.EventType = "" ∨ em.EventVersion = ""
          · simp [h1, h2, h3]
          · exfalso
            rcases hbad with h | h | h | h | h
            · exact h1 h
            · exact h2 (Or.inl h)
            · exact h2 (Or.inr h)
            · exact h3 (Or.inl h)
            · exact h3 (Or.inr h)
    · simp only [not_or] at hbad
      obtain ⟨h1, h2, h3, h4, h5⟩ := hbad
      rw [EventStream.SaveMessage_valid rt es em h1 h2 h3 h4 h5,
        EventStream.SaveMessage_valid rt _ em h1 h2 h3 h4 h5]
      cases es.Conn.insertAnswer (insertParamsOf (prepareForInsert rt em)) with
      | error e => exact ⟨rfl, rfl⟩
      | ok id =>
        by_cases hid : id = 0
        · simp [hid]
        · simp [hid]
  · intro hnone
    by_cases hbad : em.EventId = "" ∨ em.OriginId = "" ∨ em.OriginBuildVersion = "" ∨
        em.EventType = "" ∨ em.EventVersion = ""
    · exact absurd hnone (EventStream.SaveMessage_invalid rt es em hbad).2.1
    · simp only [not_or] at hbad
      obtain ⟨h1, h2, h3, h4, h5⟩ := hbad
      rw [EventStream.SaveMessage_valid rt es em h1 h2 h3 h4 h5] at hnone ⊢
      cases hans : es.Conn.insertAnswer (insertParamsOf (prepareForInsert rt em)) with
      | error e =>
        rw [hans] at hnone
        simp at hnone
      | ok id =>
        rw [hans] at hnone
        by_cases hid : id = 0
        · simp [hid] at hnone
        · simp [hid]

/-- C7 at a concrete event: the store answers 7; the event, sent with Id 99, comes back with
Id 7 and no error, also through a client whose publishes fail. -/
theorem C7_result_follows_the_insert_answer_witness :
    sampleEvent.EventId ≠ "" ∧
    ((sampleStream.SaveMessage sampleRuntime sampleEvent).err = none ∧
      (sampleStream.SaveMessage sampleRuntime sampleEvent).em.Id = 7) ∧
    (sampleStreamMqtt.SaveMessage sampleRuntime sampleEvent).err = none :=
  ⟨by decide,
    ((C7_result_follows_the_insert_answer sampleRuntime sampleStream sampleEvent).1
      (by decide) (by decide) (by decide) (by decide) (by decide)).2.2 7 (by decide) rfl,
    by decide⟩

/-- C8: whenever SaveMessage succeeds, the DestinationId it returns is non-empty and is the
DestinationId of the input when that is non-empty and the OriginId of the input otherwise;
an INSERT was sent, and every INSERT sent binds that same destination. -/
theorem C8_destination_defaults_to_origin (rt : Runtime) (es : EventStream) (em : EventMessage)
    (hsucc : (es.SaveMessage rt em).err = none) :
    (es.SaveMessage rt em).em.DestinationId ≠ "" ∧
    (es.SaveMessage rt em).em.DestinationId =
      (if em.DestinationId = "" then em.OriginId else em.DestinationId) ∧
    (∃ p, Effect.insert p ∈ (es.SaveMessage rt em).trace) ∧
    (∀ p, Effect.insert p ∈ (es.SaveMessage rt em).trace →
      p.destination_id = (es.SaveMessage rt em).em.DestinationId) := by
  by_cases hbad : em.EventId = "" ∨ em.OriginId = "" ∨ em.OriginBuildVersion = "" ∨
      em.EventType = "" ∨ em.EventVersion = ""
  · exact absurd hsucc (EventStream.SaveMessage_invalid rt es em hbad).2.1
  · simp only [not_or] at hbad
    obtain ⟨h1, h2, h3, h4, h5⟩ := hbad
    have hdest : (prepareForInsert rt em).DestinationId
        = (if em.DestinationId = "" then em.OriginId else em.DestinationId) := by
      unfold prepareForInsert
      by_cases hd : em.DestinationId = "" <;> simp [hd]
    have hmem : ∀ p, Effect.insert p ∈ (es.SaveMessage rt em).trace →
        p.destination_id = (prepareForInsert rt em).DestinationId := by
      intro p hp
      rw [(EventStream.SaveMessage_insert_mem rt es em p hp).1]
      rfl
    have hval := EventStream.SaveMessage_valid rt es em h1 h2 h3 h4 h5
    cases hans : es.Conn.insertAnswer (insertParamsOf (prepareForInsert rt em)) with
    | error e =>
      rw [hval, hans] at hsucc
      simp at hsucc
    | ok id =>
      by_cases hid : id = 0
      · rw [hval, hans] at hsucc
        simp [hid] at hsucc
      · have hem : (es.SaveMessage rt em).em = { prepareForInsert rt em with Id := id } := by
          rw [hval, hans]
          simp [hid]
        have htr : Effect.insert (insertParamsOf (prepareForInsert rt em)) ∈
            (es.SaveMessage rt em).trace := by
          rw [hval, hans]
          simp [hid]
        have hd2 : (es.SaveMessage rt em).em.DestinationId
            = (prepareForInsert rt em).DestinationId := by
          rw [hem]
        refine ⟨?_, ?_, ⟨_, htr⟩, ?_⟩
        · rw [hd2, hdest]
          by_cases hd : em.DestinationId = ""
          · simpa [hd] using h2
          · simp [hd]
        · rw [hd2, hdest]
        · intro p hp
          rw [hd2]
          exact hmem p hp

/-- C8 at a concrete event: the sample event has no destination and origin "a"; it is saved
with destination "a". -/
theorem C8_destination_defaults_to_origin_witness :
    (sampleStream.SaveMessage sampleRuntime sampleEvent).err = none ∧
    sampleEvent.DestinationId = "" ∧
    (sampleStream.SaveMessage sampleRuntime sampleEvent).em.DestinationId = "a" :=
  ⟨by decide, by decide,
    ((C8_destination_defaults_to_origin sampleRuntime sampleStream sampleEvent
      (by decide)).2.1).trans (by decide)⟩

/-! ## The four queries -/

theorem rowsScan_selectList (r : EventRow) : rowsScan (selectList r) = .ok (eventOfRow r) := by
  obtain ⟨id, eid, ct, oid, oit, ogr, obv, did, dit, et, ety, est, ev, pj⟩ := r
  cases ct <;> cases oit <;> cases ogr <;> cases obv <;> cases et <;> cases ety <;>
    cases est <;> cases ev <;> cases pj <;> rfl

theorem rowsScan_selectListPage (r : EventRow) (hsub : r.event_subtype ≠ none) :
    rowsScan (selectListPage r) = .ok (eventOfRow r) := by
  obtain ⟨id, eid, ct, oid, oit, ogr, obv, did, dit, et, ety, est, ev, pj⟩ := r
  cases est with
  | none => exact absurd rfl hsub
  | some st =>
    cases ct <;> cases oit <;> cases ogr <;> cases obv <;> cases et <;> cases ety <;>
      cases ev <;> cases pj <;> rfl

theorem rowsScan_selectListPage_null (r : EventRow) (hsub : r.event_subtype = none) :
    rowsScan (selectListPage r) =
      .error "can't scan into dest: cannot scan null into *string" := by
  obtain ⟨id, eid, ct, oid, oit, ogr, obv, did, dit, et, ety, est, ev, pj⟩ := r
  simp only at hsub
  subst hsub
  cases ct <;> cases oit <;> cases ogr <;> cases obv <;> cases et <;> cases ety <;>
    cases ev <;> cases pj <;> rfl

theorem ParseRows.loop_ok (sel : EventRow → ResultRow) (rows : List EventRow) :
    ∀ ms : List EventMessage, (∀ r ∈ rows, rowsScan (sel r) = .ok (eventOfRow r)) →
      ParseRows.loop (rows.map sel) ms = (ms ++ rows.map eventOfRow, none) := by
  induction rows with
  | nil =>
    intro ms _
    simp [ParseRows.loop]
  | cons r rest ih =>
    intro ms hscan
    have hr := hscan r (List.mem_cons_self _ _)
    simp only [List.map_cons, ParseRows.loop, hr]
    rw [ih (ms ++ [eventOfRow r]) (fun x hx => hscan x (List.mem_cons_of_mem _ hx))]
    simp

/-- A query whose select list scans on every selected row returns the selected rows, sorted
by descending id and cut at the limit, with no error. -/
theorem queryThenParse_sqlSelect (table : List EventRow) (wh : EventRow → Bool) (limit : Int)
    (sel : EventRow → ResultRow) (hlimit : 0 ≤ limit)
    (hscan : ∀ r ∈ table, wh r = true → rowsScan (sel r) = .ok (eventOfRow r)) :
    queryThenParse (sqlSelect table wh limit sel) =
      ((((table.filter wh).insertionSort byIdDesc).take limit.toNat).map eventOfRow, none) := by
  have hl : ¬ limit < 0 := by omega
  simp only [sqlSelect, hl, if_false, queryThenParse, ParseRows]
  rw [ParseRows.loop_ok sel _ []]
  · simp
  · intro r hr
    have hmem : r ∈ (table.filter wh).insertionSort byIdDesc := List.mem_of_mem_take hr
    rw [List.mem_insertionSort, List.mem_filter] at hmem
    exact hscan r hmem.1 hmem.2

theorem sorted_insertionSort_byIdDesc (l : List EventRow) :
    (l.insertionSort byIdDesc).Pairwise byIdDesc := by
  haveI : IsTotal EventRow byIdDesc := ⟨fun a b => by unfold byIdDesc; omega⟩
  haveI : IsTrans EventRow byIdDesc := ⟨fun a b c hab hbc => by unfold byIdDesc at *; omega⟩
  exact List.sorted_insertionSort byIdDesc l

/-- Over rows with pairwise distinct ids, ORDER BY id DESC is strictly descending. -/
theorem strict_insertionSort_byIdDesc (l : List EventRow)
    (hd : l.Pairwise (fun a b => a.id ≠ b.id)) :
    (l.insertionSort byIdDesc).Pairwise (fun a b => b.id < a.id) := by
  have hne : (l.insertionSort byIdDesc).Pairwise (fun a b => a.id ≠ b.id) :=
    ((List.perm_insertionSort byIdDesc l).pairwise_iff (fun h => Ne.symm h)).2 hd
  refine ((sorted_insertionSort_byIdDesc l).and hne).imp ?_
  intro a b hab
  have h1 : b.id ≤ a.id := hab.1
  have h2 : a.id ≠ b.id := hab.2
  omega

/-- A further WHERE condition selects from the sorted rows what sorting the selection gives. -/
theorem insertionSort_filter_byIdDesc (l : List EventRow)
    (hd : l.Pairwise (fun a b => a.id ≠ b.id)) (q : EventRow → Bool) :
    (l.filter q).insertionSort byIdDesc = (l.insertionSort byIdDesc).filter q := by
  haveI : IsAntisymm EventRow (fun a b => b.id < a.id) :=
    ⟨fun a b hab hba => absurd hab (by omega)⟩
  refine List.eq_of_perm_of_sorted ?_ (strict_insertionSort_byIdDesc _ (hd.filter q))
    ((strict_insertionSort_byIdDesc l hd).filter q)
  exact (List.perm_insertionSort byIdDesc (l.filter q)).trans
    ((List.perm_insertionSort byIdDesc l).filter q).symm

/-- What ORDER BY id DESC over a WHERE selection is: strictly descending ids, and exactly
the rows of the table that satisfy the condition. -/
theorem select_sorted_spec (table : List EventRow)
    (hd : table.Pairwise (fun a b => a.id ≠ b.id)) (wh : EventRow → Bool) :
    ((table.filter wh).insertionSort byIdDesc).Pairwise (fun a b => b.id < a.id) ∧
    (∀ r, r ∈ (table.filter wh).insertionSort byIdDesc ↔ r ∈ table ∧ wh r = true) := by
  refine ⟨strict_insertionSort_byIdDesc _ (hd.filter wh), fun r => ?_⟩
  rw [List.mem_insertionSort, List.mem_filter]

/-- The three queries whose select list has a default for every nullable column, and the
Page query on rows that have an event_subtype: over a table with pairwise distinct ids and
for a limit ≥ 0, each returns, with no error, the first limit entries of the list of the
rows that match its WHERE clause in strictly descending id order. -/
theorem queries_return_matching_rows_descending (es : EventStream) (destId eventType : String)
    (newestId lastId limit : Int)
    (hd : es.Conn.events.Pairwise (fun a b => a.id ≠ b.id)) (hlimit : 0 ≤ limit) :
    (∃ L : List EventRow, L.Pairwise (fun a b => b.id < a.id) ∧
      (∀ r, r ∈ L ↔ r ∈ es.Conn.events ∧ r.destination_id = destId ∧ r.id > newestId) ∧
      es.GetByDestinationId destId newestId limit
        = ((L.take limit.toNat).map eventOfRow, none)) ∧
    (∃ L : List EventRow, L.Pairwise (fun a b => b.id < a.id) ∧
      (∀ r, r ∈ L ↔ r ∈ es.Conn.events ∧ r.destination_id = destId ∧
        r.event_type = some eventType ∧ r.id > newestId) ∧
      es.GetByDestinationIdAndEventType destId eventType newestId limit
        = ((L.take limit.toNat).map eventOfRow, none)) ∧
    (∃ L : List EventRow, L.Pairwise (fun a b => b.id < a.id) ∧
      (∀ r, r ∈ L ↔ r ∈ es.Conn.events ∧ r.destination_id = destId ∧
        r.event_type = some eventType ∧ r.id > newestId ∧ r.id < lastId) ∧
      es.GetByDestinationIdAndEventTypePage destId eventType newestId lastId limit
        = ((L.take limit.toNat).map eventOfRow, none)) ∧
    ((∀ r ∈ es.Conn.events, r.destination_id = destId → r.event_subtype ≠ none) →
      ∃ L : List EventRow, L.Pairwise (fun a b => b.id < a.id) ∧
      (∀ r, r ∈ L ↔ r ∈ es.Conn.events ∧ r.destination_id = destId ∧ r.id > newestId ∧
        r.id < lastId) ∧
      es.GetByDestinationIdPage destId newestId lastId limit
        = ((L.take limit.toNat).map eventOfRow, none)) := by
  refine ⟨?_, ?_, ?_, ?_⟩
  · obtain ⟨h1, h2⟩ := select_sorted_spec es.Conn.events hd
      (fun r => decide (r.destination_id = destId) && decide (r.id > newestId))
    refine ⟨_, h1, fun r => ?_, queryThenParse_sqlSelect _ _ _ _ hlimit
      (fun r _ _ => rowsScan_selectList r)⟩
    rw [h2]
    simp
  · obtain ⟨h1, h2⟩ := select_sorted_spec es.Conn.events hd
      (fun r => decide (r.destination_id = destId) && decide (r.event_type = some eventType)
        && decide (r.id > newestId))
    refine ⟨_, h1, fun r => ?_, queryThenParse_sqlSelect _ _ _ _ hlimit
      (fun r _ _ => rowsScan_selectList r)⟩
    rw [h2]
    simp [and_assoc]
  · obtain ⟨h1, h2⟩ := select_sorted_spec es.Conn.events hd
      (fun r => decide (r.destination_id = destId) && decide (r.event_type = some eventType)
        && decide (r.id > newestId) && decide (r.id < lastId))
    refine ⟨_, h1, fun r => ?_, queryThenParse_sqlSelect _ _ _ _ hlimit
      (fun r _ _ => rowsScan_selectList r)⟩
    rw [h2]
    simp [and_assoc]
  · intro hsub
    obtain ⟨h1, h2⟩ := select_sorted_spec es.Conn.events hd
      (fun r => decide (r.destination_id = destId) && decide (r.id > newestId)
        && decide (r.id < lastId))
    refine ⟨_, h1, fun r => ?_, queryThenParse_sqlSelect _ _ _ _ hlimit ?_⟩
    · rw [h2]
      simp [and_assoc]
    · intro r hr hwh
      refine rowsScan_selectListPage r (hsub r hr ?_)
      simp only [Bool.and_eq_true, decide_eq_true_eq] at hwh
      exact hwh.1.1

/-- C9 (the code departs from the claim): over a table with ids 10, 11, 12 for "d1" where
row 10 has no event_subtype (the column is nullable), GetByDestinationIdPage for ids below
11 returns the empty list and a scan error instead of the row with id 10, because its
select list reads COALESCE(event_subtype) with no default; GetByDestinationId, whose select
list has the default, returns that same row, and so does GetByDestinationIdAndEventTypePage. -/
theorem C9_page_query_fails_on_null_subtype :
    streamNullSubtype.GetByDestinationIdPage "d1" (-1) 11 2 =
      ([], some "can't scan into dest: cannot scan null into *string") ∧
    (streamNullSubtype.GetByDestinationId "d1" (-1) 3).1.map (fun m => m.Id) = [12, 11, 10] ∧
    (streamNullSubtype.GetByDestinationId "d1" (-1) 3).2 = none ∧
    (streamNullSubtype.GetByDestinationIdAndEventTypePage "d1" "temp" (-1) 11 2).1.map
      (fun m => (m.Id, m.EventSubtype)) = [(10, "")] ∧
    tableNullSubtype.Pairwise (fun a b => a.id ≠ b.id) := by
  decide

/-! ## Paging backward -/

theorem smallestId_foldl (rest : List EventMessage) :
    ∀ acc : Int,
      rest.foldl (fun a x => min a x.Id) acc ≤ acc ∧
      (∀ x ∈ rest, rest.foldl (fun a x => min a x.Id) acc ≤ x.Id) ∧
      (rest.foldl (fun a x => min a x.Id) acc = acc ∨
        ∃ x ∈ rest, rest.foldl (fun a x => min a x.Id) acc = x.Id) := by
  induction rest with
  | nil =>
    intro acc
    simp
  | cons y ys ih =>
    intro acc
    obtain ⟨h1, h2, h3⟩ := ih (min acc y.Id)
    simp only [List.foldl_cons]
    refine ⟨le_trans h1 (min_le_left _ _), ?_, ?_⟩
    · intro x hx
      rcases List.mem_cons.1 hx with hxy | hxy
      · subst hxy
        exact le_trans h1 (min_le_right _ _)
      · exact h2 x hxy
    · rcases h3 with h3 | ⟨x, hx, hxe⟩
      · rcases min_choice acc y.Id with hc | hc
        · left
          rw [h3, hc]
        · right
          exact ⟨y, List.mem_cons_self _ _, by rw [h3, hc]⟩
      · right
        exact ⟨x, List.mem_cons_of_mem _ hx, hxe⟩

theorem smallestId_le (m : EventMessage) (rest : List EventMessage) :
    ∀ x ∈ m :: rest, smallestId m rest ≤ x.Id := by
  intro x hx
  obtain ⟨h1, h2, _⟩ := smallestId_foldl rest m.Id
  rcases List.mem_cons.1 hx with hxm | hxm
  · subst hxm
    exact h1
  · exact h2 x hxm

theorem smallestId_mem (m : EventMessage) (rest : List EventMessage) :
    ∃ x ∈ m :: rest, x.Id = smallestId m rest := by
  obtain ⟨_, _, h3⟩ := smallestId_foldl rest m.Id
  rcases h3 with h3 | ⟨x, hx, hxe⟩
  · exact ⟨m, List.mem_cons_self _ _, h3.symm⟩
  · exact ⟨x, List.mem_cons_of_mem _ hx, hxe.symm⟩

/-- In a strictly descending list, the rows below the lowest id of a page taken from a
suffix are exactly the rows after that page. -/
theorem filter_below_smallestId (pre T : List EventRow) (k : Nat) (m : EventMessage)
    (rest : List EventMessage)
    (hs : (pre ++ T).Pairwise (fun a b => b.id < a.id))
    (hpage : (T.take k).map eventOfRow = m :: rest) :
    (pre ++ T).filter (fun r => decide (r.id < smallestId m rest)) = T.drop k := by
  obtain ⟨x, hx, hxe⟩ := smallestId_mem m rest
  rw [← hpage, List.mem_map] at hx
  obtain ⟨r0, hr0, hr0e⟩ := hx
  have hr0id : r0.id = smallestId m rest := by
    rw [← hxe, ← hr0e]
    rfl
  have hlow : ∀ r ∈ T.take k, smallestId m rest ≤ r.id := by
    intro r hr
    have : eventOfRow r ∈ m :: rest := by
      rw [← hpage]
      exact List.mem_map_of_mem _ hr
    exact smallestId_le m rest _ this
  have hsplit : pre ++ T = pre ++ (T.take k ++ T.drop k) := by rw [List.take_append_drop]
  rw [hsplit] at hs
  rw [List.pairwise_append] at hs
  obtain ⟨_, hT, hcross⟩ := hs
  rw [List.pairwise_append] at hT
  obtain ⟨_, _, hcross2⟩ := hT
  have hpre : pre.filter (fun r => decide (r.id < smallestId m rest)) = [] := by
    rw [List.filter_eq_nil_iff]
    intro r hr
    have := hcross r hr r0 (List.mem_append_left _ hr0)
    simp only [decide_eq_true_eq]
    omega
  have htake : (T.take k).filter (fun r => decide (r.id < smallestId m rest)) = [] := by
    rw [List.filter_eq_nil_iff]
    intro r hr
    have := hlow r hr
    simp only [decide_eq_true_eq]
    omega
  have hdrop : (T.drop k).filter (fun r => decide (r.id < smallestId m rest)) = T.drop k := by
    rw [List.filter_eq_self]
    intro r hr
    have := hcross2 r0 hr0 r hr
    simp only [decide_eq_true_eq]
    omega
  rw [hsplit, List.filter_append, List.filter_append, hpre, htake, hdrop]
  simp

theorem EventStream.GetByDestinationId_eq (es : EventStream) (destId : String)
    (newestId limit : Int) (hlimit : 0 ≤ limit) :
    es.GetByDestinationId destId newestId limit =
      ((((es.Conn.events.filter
          (fun r => decide (r.destination_id = destId) && decide (r.id > newestId))).insertionSort
          byIdDesc).take limit.toNat).map eventOfRow, none) :=
  queryThenParse_sqlSelect _ _ _ _ hlimit (fun r _ _ => rowsScan_selectList r)

theorem EventStream.GetByDestinationIdPage_eq (es : EventStream) (destId : String)
    (newestId lastId limit : Int)
    (hd : es.Conn.events.Pairwise (fun a b => a.id ≠ b.id)) (hlimit : 0 ≤ limit)
    (hsub : ∀ r ∈ es.Conn.events, r.destination_id = destId → r.event_subtype ≠ none) :
    es.GetByDestinationIdPage destId newestId lastId limit =
      (((((es.Conn.events.filter
          (fun r => decide (r.destination_id = destId) && decide (r.id > newestId))).insertionSort
          byIdDesc).filter (fun r => decide (r.id < lastId))).take limit.toNat).map eventOfRow,
        none) := by
  have hq : es.GetByDestinationIdPage destId newestId lastId limit =
      ((((es.Conn.events.filter
          (fun r => decide (r.destination_id = destId) && decide (r.id > newestId)
            && decide (r.id < lastId))).insertionSort
          byIdDesc).take limit.toNat).map eventOfRow, none) := by
    refine queryThenParse_sqlSelect _ _ _ _ hlimit ?_
    intro r hr hwh
    refine rowsScan_selectListPage r (hsub r hr ?_)
    simp only [Bool.and_eq_true, decide_eq_true_eq] at hwh
    exact hwh.1.1
  rw [hq, ← insertionSort_filter_byIdDesc _ (hd.filter _), List.filter_filter]
  congr 5
  funext r
  exact Bool.and_comm _ _

/-- The paging loop from any point of the descending list: when the page in hand is the
first limit rows of a suffix T of the list, enough further requests (as many as T is long)
end on an empty page with no error, and the pages received are T cut in pieces, in order. -/
theorem pageLoop_complete (es : EventStream) (destId : String) (newestId limit : Int)
    (hd : es.Conn.events.Pairwise (fun a b => a.id ≠ b.id)) (hlimit : 1 ≤ limit)
    (hsub : ∀ r ∈ es.Conn.events, r.destination_id = destId → r.event_subtype ≠ none) :
    ∀ (fuel : Nat) (pre T : List EventRow),
      pre ++ T = (es.Conn.events.filter
        (fun r => decide (r.destination_id = destId) && decide (r.id > newestId))).insertionSort
          byIdDesc →
      T.length ≤ fuel →
      ∃ pages, pageLoop es destId newestId limit fuel
          ((T.take limit.toNat).map eventOfRow, none) = some (pages, none) ∧
        pages.flatten = T.map eventOfRow ∧ pages.getLast? = some [] ∧
        (∀ pg ∈ pages, pg.length ≤ limit.toNat) ∧
        (∀ pg ∈ pages.dropLast, pg ≠ []) := by
  obtain ⟨k, hk⟩ : ∃ k : Nat, limit.toNat = k + 1 :=
    ⟨limit.toNat - 1, by omega⟩
  have hempty : ∀ fuel : Nat, ∃ pages, pageLoop es destId newestId limit fuel
      ((([] : List EventRow).take limit.toNat).map eventOfRow, none) = some (pages, none) ∧
      pages.flatten = ([] : List EventRow).map eventOfRow ∧ pages.getLast? = some [] ∧
      (∀ pg ∈ pages, pg.length ≤ limit.toNat) ∧ (∀ pg ∈ pages.dropLast, pg ≠ []) := by
    intro fuel
    refine ⟨[[]], ?_, by simp, by simp, by simp, by simp⟩
    cases fuel <;> simp [pageLoop]
  intro fuel
  induction fuel with
  | zero =>
    intro pre T _ hlen
    have hT : T = [] := List.length_eq_zero.1 (Nat.le_zero.1 hlen)
    subst hT
    exact hempty 0
  | succ fuel ih =>
    intro pre T hS hlen
    cases T with
    | nil => exact hempty (fuel + 1)
    | cons t ts =>
      have hstrict := strict_insertionSort_byIdDesc _
        (hd.filter (fun r => decide (r.destination_id = destId) && decide (r.id > newestId)))
      rw [← hS] at hstrict
      have hpage : ((t :: ts).take limit.toNat).map eventOfRow
          = eventOfRow t :: (ts.take k).map eventOfRow := by
        rw [hk]
        rfl
      have hnext := EventStream.GetByDestinationIdPage_eq es destId newestId
        (smallestId (eventOfRow t) ((ts.take k).map eventOfRow)) limit hd (by omega) hsub
      rw [← hS, filter_below_smallestId pre (t :: ts) limit.toNat _ _ hstrict hpage] at hnext
      obtain ⟨pages, hrun, hjoin, hlast, hsize, hne⟩ :=
        ih (pre ++ (t :: ts).take limit.toNat) ((t :: ts).drop limit.toNat)
          (by rw [List.append_assoc, List.take_append_drop]; exact hS)
          (by
            rw [List.length_drop, hk]
            simp only [List.length_cons] at hlen ⊢
            omega)
      refine ⟨(eventOfRow t :: (ts.take k).map eventOfRow) :: pages, ?_, ?_, ?_, ?_, ?_⟩
      · rw [hpage]
        simp only [pageLoop, hnext, hrun]
      · rw [List.flatten_cons, hjoin, ← hpage, ← List.map_append, List.take_append_drop]
      · cases pages with
        | nil => simp at hlast
        | cons pg0 more =>
          rw [List.getLast?_cons_cons]
          exact hlast
      · intro pg hpg
        rcases List.mem_cons.1 hpg with h | h
        · rw [h, ← hpage, List.length_map]
          exact List.length_take_le _ _
        · exact hsize pg h
      · cases pages with
        | nil => simp at hlast
        | cons pg0 more =>
          intro pg hpg
          rw [List.dropLast_cons₂] at hpg
          rcases List.mem_cons.1 hpg with h | h
          · rw [h]
            simp
          · exact hne pg h

/-- Paging backward over a destination whose rows all have an event_subtype: over a table
with pairwise distinct ids and for a limit ≥ 1, the procedure ends on an empty page with no
error once it is given as many further requests as there are events, and the pages put end
to end are all the events of the destination with id above newestId, in strictly descending
id order, each row of the table exactly once. Every page but the last, empty one is
non-empty and holds at most limit events. -/
theorem pageBackward_returns_all_events (es : EventStream) (destId : String)
    (newestId limit : Int) (fuel : Nat)
    (hd : es.Conn.events.Pairwise (fun a b => a.id ≠ b.id)) (hlimit : 1 ≤ limit)
    (hsub : ∀ r ∈ es.Conn.events, r.destination_id = destId → r.event_subtype ≠ none)
    (hfuel : (allEventsDesc es.Conn.events destId newestId).length ≤ fuel) :
    ∃ pages, pageBackward es destId newestId limit fuel = some (pages, none) ∧
      pages.flatten = allEventsDesc es.Conn.events destId newestId ∧
      pages.getLast? = some [] ∧
      (∀ pg ∈ pages, pg.length ≤ limit.toNat) ∧
      (∀ pg ∈ pages.dropLast, pg ≠ []) ∧
      (allEventsDesc es.Conn.events destId newestId).Pairwise (fun a b => b.Id < a.Id) ∧
      (∀ m, m ∈ allEventsDesc es.Conn.events destId newestId ↔
        ∃ r ∈ es.Conn.events, r.destination_id = destId ∧ r.id > newestId ∧
          eventOfRow r = m) := by
  obtain ⟨pages, hrun, hjoin, hlast, hsize, hne⟩ :=
    pageLoop_complete es destId newestId limit hd hlimit hsub fuel []
      ((es.Conn.events.filter
        (fun r : EventRow =>
          decide (r.destination_id = destId) && decide (r.id > newestId))).insertionSort
          byIdDesc) (List.nil_append _) (by simpa [allEventsDesc] using hfuel)
  obtain ⟨hstrict, hmem⟩ := select_sorted_spec es.Conn.events hd
    (fun r => decide (r.destination_id = destId) && decide (r.id > newestId))
  refine ⟨pages, ?_, hjoin, hlast, hsize, hne, ?_, ?_⟩
  · unfold pageBackward
    rw [EventStream.GetByDestinationId_eq es destId newestId limit (by omega)]
    exact hrun
  · unfold allEventsDesc
    rw [List.pairwise_map]
    exact hstrict
  · intro m
    unfold allEventsDesc
    rw [List.mem_map]
    constructor
    · rintro ⟨r, hr, hrm⟩
      rw [hmem] at hr
      simp only [Bool.and_eq_true, decide_eq_true_eq] at hr
      exact ⟨r, hr.1, hr.2.1, hr.2.2, hrm⟩
    · rintro ⟨r, hr, h1, h2, hrm⟩
      refine ⟨r, ?_, hrm⟩
      rw [hmem]
      simp only [Bool.and_eq_true, decide_eq_true_eq]
      exact ⟨hr, h1, h2⟩

/-- The paging result at the example of the claim: ids 10, 11, 12 for "d1", newestId -1,
limit 2 give the pages 12 11, then 10, then the empty page. -/
theorem pageBackward_example :
    (pageBackward sampleStream "d1" (-1) 2 3).map
      (fun res => (res.1.map (fun pg => pg.map (fun m => m.Id)), res.2))
      = some ([[12, 11], [10], []], none) := by
  decide

/-- C10 (the code departs from the claim): over the table with ids 10, 11, 12 for "d1" where
row 10 has no event_subtype, paging backward with newestId -1 and limit 2 receives the page
12 11 from GetByDestinationId and then an error from GetByDestinationIdPage with lastId 11:
the event with id 10 is never delivered, although ids are distinct and positive. -/
theorem C10_paging_stops_on_null_subtype :
    (pageBackward streamNullSubtype "d1" (-1) 2 3).map
      (fun res => (res.1.map (fun pg => pg.map (fun m => m.Id)), res.2))
      = some ([[12, 11]], some "can't scan into dest: cannot scan null into *string") ∧
    (allEventsDesc tableNullSubtype "d1" (-1)).map (fun m => m.Id) = [12, 11, 10] ∧
    tableNullSubtype.Pairwise (fun a b => a.id ≠ b.id) ∧
    (∀ r ∈ tableNullSubtype, 0 < r.id) := by
  decide

/-! ## The frame of Secure.Check -/

/-- A call of Check either is blocked and returns the state it was given, or found the
origin under its limit and returns the state with that origin's counter advanced. -/
theorem Secure.Check_blocked_or_counted (s : Secure) (id pass : String) :
    ((s.Check id pass).1.ok = false ∧ (s.Check id pass).2 = s) ∨
    (∃ d, s.Origins.get id = some d ∧
      s.Check id pass =
        (⟨true, none, ""⟩, { s with Origins := s.Origins.modify id SecureOrigin.addRequest })) := by
  cases hget : s.Origins.get id with
  | none =>
    left
    rw [Secure.Check_unknown s id pass hget]
    exact ⟨rfl, rfl⟩
  | some d =>
    by_cases hlim : d.ReqsLastMin > s.MaxRequestsPerMin
    · left
      rw [Secure.Check_over_limit s id pass d hget hlim]
      exact ⟨rfl, rfl⟩
    · by_cases hpass : d.PassHash = "" ∨ d.PassHash = sha256Hex pass
      · right
        exact ⟨d, rfl, Secure.Check_allowed s id pass d hget hlim hpass⟩
      · left
        simp only [not_or] at hpass
        rw [Secure.Check_wrong_pass s id pass d hget hlim hpass.1 hpass.2]
        exact ⟨rfl, rfl⟩

/-- C13: Check changes the state only when it returns allowed, and then only the counter of
the origin that was checked, by one int64 addition of 1 (the mathematical successor whenever
the counter is below the largest int64). Every blocked call returns the state unchanged, and
every call leaves the entries of all other ids, the Id and PassHash of every entry, the keys
of the map, MaxRequestsPerMin and LastRefreshed as they were. -/
theorem C13_check_changes_only_the_checked_counter (s : Secure) (id pass : String) :
    ((s.Check id pass).1.ok = false → (s.Check id pass).2 = s) ∧
    ((s.Check id pass).1.ok = true →
      ∃ d, s.Origins.get id = some d ∧
        (s.Check id pass).2.Origins.get id =
          some { d with ReqsLastMin := wrapInt64 (d.ReqsLastMin + 1) } ∧
        (-(2 ^ 63) ≤ d.ReqsLastMin → d.ReqsLastMin < 2 ^ 63 - 1 →
          (s.Check id pass).2.Origins.get id =
            some { d with ReqsLastMin := d.ReqsLastMin + 1 })) ∧
    (∀ other, other ≠ id →
      (s.Check id pass).2.Origins.get other = s.Origins.get other) ∧
    (∀ k, ((s.Check id pass).2.Origins.get k).map (fun d => (d.Id, d.PassHash)) =
      (s.Origins.get k).map (fun d => (d.Id, d.PassHash))) ∧
    (s.Check id pass).2.Origins.keys = s.Origins.keys ∧
    (s.Check id pass).2.MaxRequestsPerMin = s.MaxRequestsPerMin ∧
    (s.Check id pass).2.LastRefreshed = s.LastRefreshed := by
  rcases Secure.Check_blocked_or_counted s id pass with ⟨hok, hsame⟩ | ⟨d, hget, hrun⟩
  · refine ⟨fun _ => hsame, ?_, ?_, ?_, ?_, ?_, ?_⟩
    · intro htrue
      rw [hok] at htrue
      exact absurd htrue (by decide)
    · intro other _
      rw [hsame]
    · intro k
      rw [hsame]
    · rw [hsame]
    · rw [hsame]
    · rw [hsame]
  · have hnew : (s.Check id pass).2.Origins.get id
        = some { d with ReqsLastMin := wrapInt64 (d.ReqsLastMin + 1) } := by
      rw [hrun]
      simp [OriginMap.get_modify_same, hget, SecureOrigin.addRequest]
    refine ⟨?_, ?_, ?_, ?_, ?_, ?_, ?_⟩
    · intro hfalse
      rw [hrun] at hfalse
      simp at hfalse
    · intro _
      refine ⟨d, hget, hnew, ?_⟩
      intro hlo hhi
      rw [hnew, wrapInt64_of_range _ (by omega) (by omega)]
    · intro other hne
      rw [hrun]
      exact OriginMap.get_modify_other _ id other _ hne
    · intro k
      by_cases hk : k = id
      · subst hk
        rw [hnew, hget]
        rfl
      · rw [hrun]
        simp only
        rw [OriginMap.get_modify_other _ id k _ hk]
    · rw [hrun]
      exact OriginMap.keys_modify _ _ _
    · rw [hrun]
    · rw [hrun]

/-- C13 at concrete calls: on the sample snapshot an allowed call for "a" moves the counter
of "a" from 0 to 1 and leaves "b" alone, and a call for "b" with a wrong credential returns
the snapshot unchanged. -/
theorem C13_check_changes_only_the_checked_counter_witness :
    ((secureSample.Check "b" "wrong").1.ok = false ∧
      (secureSample.Check "b" "wrong").2 = secureSample) ∧
    ((secureSample.Check "a" "").1.ok = true ∧
      ∃ d, secureSample.Origins.get "a" = some d ∧
        (secureSample.Check "a" "").2.Origins.get "a" =
          some { d with ReqsLastMin := wrapInt64 (d.ReqsLastMin + 1) } ∧
        (-(2 ^ 63) ≤ d.ReqsLastMin → d.ReqsLastMin < 2 ^ 63 - 1 →
          (secureSample.Check "a" "").2.Origins.get "a" =
            some { d with ReqsLastMin := d.ReqsLastMin + 1 })) ∧
    (secureSample.Check "a" "").2.Origins.get "b" = secureSample.Origins.get "b" :=
  ⟨⟨by decide,
    (C13_check_changes_only_the_checked_counter secureSample "b" "wrong").1 (by decide)⟩,
   ⟨by decide,
    (C13_check_changes_only_the_checked_counter secureSample "a" "").2.1 (by decide)⟩,
   (C13_check_changes_only_the_checked_counter secureSample "a" "").2.2.1 "b" (by decide)⟩

/-! ## Decimal numerals -/

theorem digitChar_is_digit (k : Nat) (hk : k < 10) :
    ('0' ≤ Nat.digitChar k ∧ Nat.digitChar k ≤ '9') ∧
      (Nat.digitChar k).toNat - '0'.toNat = k := by
  interval_cases k <;> decide

theorem parseDigits_cons_digitChar (k : Nat) (hk : k < 10) (ds : List Char) (acc : Nat) :
    parseDigits (Nat.digitChar k :: ds) acc = parseDigits ds (acc * 10 + k) := by
  obtain ⟨hd, hv⟩ := digitChar_is_digit k hk
  simp only [parseDigits, hd, hv, and_self, if_true]

/-- Reading back what toDigitsCore writes in front of ds continues on ds from the value
read so far shifted by the number written. -/
theorem parseDigits_toDigitsCore (fuel : Nat) :
    ∀ n : Nat, n < fuel →
      ∃ e : Nat, ∀ (ds : List Char) (acc : Nat),
        parseDigits (Nat.toDigitsCore 10 fuel n ds) acc = parseDigits ds (acc * 10 ^ e + n) := by
  induction fuel with
  | zero =>
    intro n hn
    omega
  | succ fuel ih =>
    intro n hn
    by_cases hq : n / 10 = 0
    · refine ⟨1, fun ds acc => ?_⟩
      have hmod : n % 10 = n := by omega
      simp only [Nat.toDigitsCore, hq, if_true]
      rw [parseDigits_cons_digitChar _ (Nat.mod_lt _ (by decide)), hmod]
      simp
    · obtain ⟨e, he⟩ := ih (n / 10) (by omega)
      refine ⟨e + 1, fun ds acc => ?_⟩
      simp only [Nat.toDigitsCore, hq, if_false]
      rw [he, parseDigits_cons_digitChar _ (Nat.mod_lt _ (by decide))]
      congr 1
      have := Nat.div_add_mod n 10
      rw [pow_succ]
      nlinarith [this]

/-- The decimal numeral of a natural number reads back as that number. -/
theorem parseDigits_repr (n : Nat) : parseDigits (toString n).data 0 = some n := by
  obtain ⟨e, he⟩ := parseDigits_toDigitsCore (n + 1) n (by omega)
  have hdata : (toString n).data = Nat.toDigitsCore 10 (n + 1) n [] := rfl
  rw [hdata, he [] 0]
  simp [parseDigits]

theorem toString_nat_injective (n m : Nat) (h : toString n = toString m) : n = m := by
  have hn := parseDigits_repr n
  rw [h, parseDigits_repr m] at hn
  exact (Option.some.inj hn).symm

theorem parseDigits_some_digits (cs : List Char) :
    ∀ (acc v : Nat), parseDigits cs acc = some v → ∀ c ∈ cs, '0' ≤ c ∧ c ≤ '9' := by
  induction cs with
  | nil =>
    intro _ _ _ c hc
    simp at hc
  | cons x rest ih =>
    intro acc v hv c hc
    by_cases hx : '0' ≤ x ∧ x ≤ '9'
    · simp only [parseDigits, hx, and_self, if_true] at hv
      rcases List.mem_cons.1 hc with h | h
      · rw [h]
        exact hx
      · exact ih _ _ hv c h
    · simp [parseDigits, hx] at hv

/-- The decimal numeral of a natural number is made of digits: it holds no underscore, no
sign, and it is not empty. -/
theorem toString_nat_digits (n : Nat) :
    (∀ c ∈ (toString n).data, '0' ≤ c ∧ c ≤ '9') ∧ (toString n).data ≠ [] := by
  refine ⟨parseDigits_some_digits _ 0 n (parseDigits_repr n), ?_⟩
  intro hnil
  have h := parseDigits_repr n
  rw [hnil] at h
  have h0 : n = 0 := by
    simp only [parseDigits] at h
    exact (Option.some.inj h).symm
  subst h0
  exact absurd hnil (by decide)

/-- Atoi on a text that starts with no sign and reads as n below 2 ^ 63. -/
theorem Atoi_unsigned (s : String) (c : Char) (rest : List Char) (n : Nat)
    (hdata : s.data = c :: rest) (h1 : c ≠ '-') (h2 : c ≠ '+')
    (hp : parseDigits (c :: rest) 0 = some n) (hn : n < 2 ^ 63) :
    Atoi s = ((n : Int), false) := by
  unfold Atoi
  rw [hdata]
  split
  · rename_i heq
    exact absurd (List.cons.inj heq).1 h1
  · rename_i heq
    exact absurd (List.cons.inj heq).1 h2
  · simp only [hp]
    simp
    omega

/-- Atoi on a minus sign followed by a text that reads as n, at most 2 ^ 63. -/
theorem Atoi_negative (s : String) (rest : List Char) (n : Nat)
    (hdata : s.data = '-' :: rest) (hne : rest ≠ [])
    (hp : parseDigits rest 0 = some n) (hn : n ≤ 2 ^ 63) :
    Atoi s = (-(n : Int), false) := by
  unfold Atoi
  rw [hdata]
  simp only [hp, hne, if_false, if_true]
  simp
  omega

/-- The call strconv.Atoi reads the decimal numeral of every int64 value back as that value,
with no error. -/
theorem Atoi_toString (i : Int) (hlo : -(2 ^ 63) ≤ i) (hhi : i < 2 ^ 63) :
    Atoi (toString i) = (i, false) := by
  cases i with
  | ofNat m =>
    have hm : m < 2 ^ 63 := by
      have : (m : Int) < 2 ^ 63 := hhi
      exact_mod_cast this
    have hstr : toString (Int.ofNat m) = toString m := rfl
    obtain ⟨hdig, hne⟩ := toString_nat_digits m
    have hparse := parseDigits_repr m
    rw [hstr]
    cases hdata : (toString m).data with
    | nil => exact absurd hdata hne
    | cons c rest =>
      have hc := hdig c (by rw [hdata]; exact List.mem_cons_self _ _)
      have h1 : c ≠ '-' := by
        rintro rfl
        exact absurd hc.1 (by decide)
      have h2 : c ≠ '+' := by
        rintro rfl
        exact absurd hc.1 (by decide)
      rw [hdata] at hparse
      exact Atoi_unsigned _ c rest m hdata h1 h2 hparse hm
  | negSucc m =>
    have hm : m + 1 ≤ 2 ^ 63 := by
      have h : -(2 ^ 63 : Int) ≤ Int.negSucc m := hlo
      rw [Int.negSucc_eq] at h
      have : ((m : Int) + 1) ≤ 2 ^ 63 := by omega
      exact_mod_cast this
    have hstr : toString (Int.negSucc m) = "-" ++ toString (m + 1) := rfl
    have hparse := parseDigits_repr (m + 1)
    obtain ⟨_, hne⟩ := toString_nat_digits (m + 1)
    have hdata : (toString (Int.negSucc m)).data = '-' :: (toString (m + 1)).data := by
      rw [hstr]
      rfl
    rw [Atoi_negative _ _ (m + 1) hdata hne hparse hm, Int.negSucc_eq]
    simp

/-! ## The parameters of GetOriginEvents -/

theorem Handler.runQuery_eq (h : Handler) (destId eventType : String)
    (newestId lastId limit : Int) :
    h.runQuery destId eventType newestId lastId limit =
      (h.EventStream.runSelect
          ⟨destId, if eventType = "" then none else some eventType, newestId,
            if lastId = 0 then none else some lastId, limit⟩,
        Effect.select
          ⟨destId, if eventType = "" then none else some eventType, newestId,
            if lastId = 0 then none else some lastId, limit⟩) := by
  unfold Handler.runQuery EventStream.runSelect
  by_cases ht : eventType = "" <;> by_cases hl : lastId = 0 <;> simp [ht, hl]

/-- An authorised GetOriginEvents request: above the ceiling it is answered 400 with no
call; otherwise it sends the one SELECT whose values are read from the parameters, and
answers from what the store function of that SELECT returns. -/
theorem Handler.GetOriginEvents_authorised (rt : Runtime) (h : Handler) (r : Request)
    (hm : r.Method ≠ "OPTIONS")
    (hok : (h.Secure.Check (r.FormValue "id") (r.FormValue "p")).1.ok = true) :
    ((Atoi (r.FormValue "limit")).1 > 1000 →
      (h.GetOriginEvents rt r).resp = httpError "limit cannot be more than 1000" 400 ∧
      (h.GetOriginEvents rt r).trace = []) ∧
    ((Atoi (r.FormValue "limit")).1 ≤ 1000 →
      ∃ q : SelectParams,
        q = ⟨r.FormValue "id",
            if r.FormValue "eventType" = "" then none else some (r.FormValue "eventType"),
            if (Atoi (r.FormValue "newestId")).2 then -1 else (Atoi (r.FormValue "newestId")).1,
            if (Atoi (r.FormValue "lastId")).1 = 0 then none
              else some (Atoi (r.FormValue "lastId")).1,
            if (Atoi (r.FormValue "limit")).1 = 0 then 100
              else (Atoi (r.FormValue "limit")).1⟩ ∧
        (h.GetOriginEvents rt r).trace = [Effect.select q] ∧
        (h.GetOriginEvents rt r).resp =
          if (h.EventStream.runSelect q).2 ≠ none then
            httpError "error getting event messages" 500
          else ⟨200, rt.jsonMarshalList (h.EventStream.runSelect q).1⟩) := by
  have herr := Secure.Check_ok_err _ _ _ hok
  refine ⟨?_, ?_⟩
  · intro hbig
    have h0 : ¬ (Atoi (r.FormValue "limit")).1 = 0 := by omega
    simp [Handler.GetOriginEvents, hm, hok, herr, h0, hbig]
  · intro hsmall
    have hlim : ¬ (if (Atoi (r.FormValue "limit")).1 = 0 then (100 : Int)
        else (Atoi (r.FormValue "limit")).1) > 1000 := by
      split <;> omega
    refine ⟨_, rfl, ?_, ?_⟩
    · simp only [Handler.GetOriginEvents, hm, hok, herr, hlim, Handler.runQuery_eq, if_false,
        ne_eq, not_true_eq_false, Bool.true_eq_false]
      generalize h.EventStream.runSelect _ = res
      by_cases hres : res.2 = none <;> simp [hres]
    · simp only [Handler.GetOriginEvents, hm, hok, herr, hlim, Handler.runQuery_eq, if_false,
        ne_eq, not_true_eq_false, Bool.true_eq_false]
      generalize h.EventStream.runSelect _ = res
      by_cases hres : res.2 = none <;> simp [hres]

/-- C11 (the claim as stated fails): a request that supplies the limit 0 is authorised and
sends its SELECT with the limit 100: the supplied value is not passed to the store
unchanged. -/
theorem C11_zero_limit_is_replaced_by_100 :
    requestReadZeroLimit.FormValue "limit" = toString (0 : Int) ∧
    requestReadZeroLimit.Method ≠ "OPTIONS" ∧
    (sampleHandler.Secure.Check (requestReadZeroLimit.FormValue "id")
      (requestReadZeroLimit.FormValue "p")).1.ok = true ∧
    (sampleHandler.GetOriginEvents sampleRuntime requestReadZeroLimit).trace =
      [Effect.select ⟨"a", none, -1, none, 100⟩] := by
  decide

/-- C11 (amended): for every authorised GetOriginEvents request, a limit above 1000 is
answered with the error response 400 and no call to the store, so no SELECT carries a limit
above 1000; otherwise exactly one SELECT is sent and the response comes from the store
function of that SELECT. In it a missing or zero limit is 100, a missing newestId is -1, a
missing or zero lastId gives the statement without an upper bound and any other lastId the
Page statement with that bound, an empty eventType gives the statement without a type
filter, and every other value, supplied as the decimal numeral of an int64 or as a
non-empty event type, is bound unchanged, as is the destination id. -/
theorem C11_read_parameters_reach_the_store (rt : Runtime) (h : Handler) (r : Request)
    (hm : r.Method ≠ "OPTIONS")
    (hok : (h.Secure.Check (r.FormValue "id") (r.FormValue "p")).1.ok = true) :
    ((Atoi (r.FormValue "limit")).1 > 1000 →
      (h.GetOriginEvents rt r).resp = httpError "limit cannot be more than 1000" 400 ∧
      (h.GetOriginEvents rt r).trace = []) ∧
    (∀ l : Int, 1000 < l → l < 2 ^ 63 → r.FormValue "limit" = toString l →
      (h.GetOriginEvents rt r).resp = httpError "limit cannot be more than 1000" 400 ∧
      (h.GetOriginEvents rt r).trace = []) ∧
    (∀ q, Effect.select q ∈ (h.GetOriginEvents rt r).trace → q.limit ≤ 1000) ∧
    ((Atoi (r.FormValue "limit")).1 ≤ 1000 →
      ∃ q : SelectParams,
        (h.GetOriginEvents rt r).trace = [Effect.select q] ∧
        (h.GetOriginEvents rt r).resp =
          (if (h.EventStream.runSelect q).2 ≠ none then
            httpError "error getting event messages" 500
          else ⟨200, rt.jsonMarshalList (h.EventStream.runSelect q).1⟩) ∧
        q.destId = r.FormValue "id" ∧
        (r.FormValue "limit" = "" ∨ r.FormValue "limit" = toString (0 : Int) →
          q.limit = 100) ∧
        (∀ l : Int, l ≠ 0 → -(2 ^ 63) ≤ l → l ≤ 1000 → r.FormValue "limit" = toString l →
          q.limit = l) ∧
        (r.FormValue "newestId" = "" → q.newestId = -1) ∧
        (∀ n : Int, -(2 ^ 63) ≤ n → n < 2 ^ 63 → r.FormValue "newestId" = toString n →
          q.newestId = n) ∧
        (r.FormValue "lastId" = "" ∨ r.FormValue "lastId" = toString (0 : Int) →
          q.lastId = none) ∧
        (∀ i : Int, i ≠ 0 → -(2 ^ 63) ≤ i → i < 2 ^ 63 → r.FormValue "lastId" = toString i →
          q.lastId = some i) ∧
        (r.FormValue "eventType" = "" → q.eventType = none) ∧
        (r.FormValue "eventType" ≠ "" → q.eventType = some (r.FormValue "eventType"))) := by
  obtain ⟨hreject, haccept⟩ := Handler.GetOriginEvents_authorised rt h r hm hok
  have hempty : Atoi "" = (0, true) := by decide
  have hzero : Atoi (toString (0 : Int)) = (0, false) := by decide
  refine ⟨hreject, ?_, ?_, ?_⟩
  · intro l hl hhi hform
    apply hreject
    rw [hform, Atoi_toString l (by omega) hhi]
    exact hl
  · intro q hq
    by_cases hbig : (Atoi (r.FormValue "limit")).1 > 1000
    · rw [(hreject hbig).2] at hq
      simp at hq
    · obtain ⟨q0, hq0, htrace, _⟩ := haccept (by omega)
      rw [htrace] at hq
      have hqe : q = q0 := by simpa using hq
      rw [hqe, hq0]
      simp only
      split <;> omega
  · intro hsmall
    obtain ⟨q, hq, htrace, hresp⟩ := haccept hsmall
    refine ⟨q, htrace, hresp, ?_, ?_, ?_, ?_, ?_, ?_, ?_, ?_, ?_⟩
    · rw [hq]
    · rintro (hform | hform) <;> rw [hq, hform] <;> simp [hempty, hzero]
    · intro l hl0 hlo hhi hform
      rw [hq, hform, Atoi_toString l hlo (by omega)]
      simp [hl0]
    · intro hform
      rw [hq, hform]
      simp [hempty]
    · intro n hlo hhi hform
      rw [hq, hform, Atoi_toString n hlo hhi]
      simp
    · rintro (hform | hform) <;> rw [hq, hform] <;> simp [hempty, hzero]
    · intro i hi0 hlo hhi hform
      rw [hq, hform, Atoi_toString i hlo hhi]
      simp [hi0]
    · intro hform
      rw [hq]
      simp [hform]
    · intro hform
      rw [hq]
      simp [hform]

/-- C11 (amended) at a concrete request: origin "a" asks for type "temp" with limit 5,
newestId 3 and lastId 9; the request is authorised, one SELECT is sent, and it binds exactly
these values. -/
theorem C11_read_parameters_reach_the_store_witness :
    requestRead.Method ≠ "OPTIONS" ∧
    (sampleHandler.Secure.Check (requestRead.FormValue "id")
      (requestRead.FormValue "p")).1.ok = true ∧
    (∀ q, Effect.select q ∈ (sampleHandler.GetOriginEvents sampleRuntime requestRead).trace →
      q.limit ≤ 1000) ∧
    (sampleHandler.GetOriginEvents sampleRuntime requestRead).trace =
      [Effect.select ⟨"a", some "temp", 3, some 9, 5⟩] :=
  ⟨by decide, by decide,
    (C11_read_parameters_reach_the_store sampleRuntime sampleHandler requestRead
      (by decide) (by decide)).2.2.1,
    by decide⟩

/-! ## The build version in AddEvent -/

/-- An authorised AddEvent whose decoded body has no OriginBuildVersion is answered with
"error saving event" and sends nothing to the store, whatever the build parameter is: the
handler never writes its build version into the event. -/
theorem Handler.AddEvent_without_body_build_version (rt : Runtime) (h : Handler) (r : Request)
    (data : String) (event0 : EventMessage) (hm : r.Method ≠ "OPTIONS")
    (hok : (h.Secure.Check (addEventDestId r) (r.FormValue "p")).1.ok = true)
    (hbody : readBody r = .ok data) (hjson : rt.jsonUnmarshal data = .ok event0)
    (hbuild : event0.OriginBuildVersion = "") :
    (h.AddEvent rt r).resp = httpError "error saving event" 500 ∧
    (h.AddEvent rt r).trace = [] := by
  have hbad : (addEventMessage r event0).EventId = "" ∨ (addEventMessage r event0).OriginId = "" ∨
      (addEventMessage r event0).OriginBuildVersion = "" ∨
      (addEventMessage r event0).EventType = "" ∨ (addEventMessage r event0).EventVersion = "" :=
    Or.inr (Or.inr (Or.inl hbuild))
  obtain ⟨_, herr, htrace⟩ := EventStream.SaveMessage_invalid rt h.EventStream _ hbad
  rw [Handler.AddEvent_authorised rt h r data event0 hm hok hbody hjson]
  simp [herr, htrace]

/-- C12 (the code departs from the claim): origin "a" posts an event whose body names an
EventId, an EventType and an EventVersion and no OriginBuildVersion, and gives no build
parameter. The handler computes the build version "not set", the request is authorised,
and the event reaches SaveMessage with an empty OriginBuildVersion: SaveMessage rejects it
with "OriginId or OriginBuildVersion not set", nothing is inserted and the answer is
500 "error saving event". The same happens when the build parameter is given as "v2". -/
theorem C12_build_version_default_never_reaches_the_event :
    requestNoBuild.FormValue "build" = "" ∧
    addEventBuildVersion requestNoBuild = "not set" ∧
    (sampleHandler.Secure.Check (addEventDestId requestNoBuild)
      (requestNoBuild.FormValue "p")).1.ok = true ∧
    (addEventMessage requestNoBuild sampleBodyNoBuildEvent).OriginBuildVersion = "" ∧
    (sampleHandler.EventStream.SaveMessage runtimeNoBuild
      (addEventMessage requestNoBuild sampleBodyNoBuildEvent)).err =
        some "OriginId or OriginBuildVersion not set" ∧
    (sampleHandler.AddEvent runtimeNoBuild requestNoBuild).resp =
      ⟨500, "error saving event\n"⟩ ∧
    (sampleHandler.AddEvent runtimeNoBuild requestNoBuild).trace = [] ∧
    addEventBuildVersion requestWithBuild = "v2" ∧
    (sampleHandler.AddEvent runtimeNoBuild requestWithBuild).resp =
      ⟨500, "error saving event\n"⟩ ∧
    (sampleHandler.AddEvent runtimeNoBuild requestWithBuild).trace = [] := by
  decide

/-! ## One refresh cycle -/

theorem OriginMap.set_of_not_mem (m : OriginMap) (k : String) (v : SecureOrigin)
    (hk : k ∉ m.keys) : m.set k v = m ++ [(k, v)] := by
  induction m with
  | nil => rfl
  | cons kv rest ih =>
    obtain ⟨k0, v0⟩ := kv
    have hne : ¬ k0 = k := by
      intro h
      apply hk
      simp [OriginMap.keys, h]
    have hrest : k ∉ OriginMap.keys rest := by
      intro h
      apply hk
      simp only [OriginMap.keys, List.map_cons, List.mem_cons]
      exact Or.inr h
    simp only [OriginMap.set, hne, if_false, List.cons_append, ih hrest]

theorem OriginMap.mem_set (m : OriginMap) (k : String) (v : SecureOrigin)
    (kd : String × SecureOrigin) (h : kd ∈ m.set k v) : kd ∈ m ∨ kd = (k, v) := by
  induction m with
  | nil =>
    right
    simpa [OriginMap.set] using h
  | cons kv rest ih =>
    obtain ⟨k0, v0⟩ := kv
    by_cases hk : k0 = k
    · subst hk
      simp only [OriginMap.set, if_true, List.mem_cons] at h
      rcases h with h | h
      · exact Or.inr h
      · exact Or.inl (List.mem_cons_of_mem _ h)
    · simp only [OriginMap.set, hk, if_false, List.mem_cons] at h
      rcases h with h | h
      · exact Or.inl (h ▸ List.mem_cons_self _ _)
      · rcases ih h with h2 | h2
        · exact Or.inl (List.mem_cons_of_mem _ h2)
        · exact Or.inr h2

theorem OriginMap.keys_set (m : OriginMap) (k : String) (v : SecureOrigin) :
    (m.set k v).keys = if k ∈ m.keys then m.keys else m.keys ++ [k] := by
  induction m with
  | nil => simp [OriginMap.set, OriginMap.keys]
  | cons kv rest ih =>
    obtain ⟨k0, v0⟩ := kv
    by_cases hk : k0 = k
    · subst hk
      simp [OriginMap.set, OriginMap.keys]
    · have hk2 : ¬ k = k0 := fun h => hk h.symm
      have ih2 : List.map Prod.fst (OriginMap.set rest k v) =
          if k ∈ List.map Prod.fst rest then List.map Prod.fst rest
          else List.map Prod.fst rest ++ [k] := ih
      simp only [OriginMap.set, hk, if_false, OriginMap.keys, List.map_cons, List.mem_cons,
        hk2, false_or, ih2]
      split <;> simp

/-- The map one cycle builds, started from the local map m: its keys are those of m and the
ids of the rows, each once, and every entry not from m is the scan of a row. -/
theorem foldl_reloadInsert_spec (rows : List OriginRow) :
    ∀ m : OriginMap, m.keys.Nodup →
      (rows.foldl reloadInsert m).keys.Nodup ∧
      (∀ id, id ∈ (rows.foldl reloadInsert m).keys ↔ id ∈ m.keys ∨ ∃ r ∈ rows, r.id = id) ∧
      (∀ kd ∈ rows.foldl reloadInsert m, kd ∈ m ∨ ∃ r ∈ rows, kd = (r.id, scanOrigin r)) := by
  induction rows with
  | nil =>
    intro m hm
    simp [hm]
  | cons r rest ih =>
    intro m hm
    have hnd : (reloadInsert m r).keys.Nodup := by
      unfold reloadInsert
      rw [OriginMap.keys_set]
      by_cases hk : r.id ∈ m.keys
      · simpa [hk] using hm
      · simp only [hk, if_false]
        rw [List.nodup_append]
        refine ⟨hm, List.nodup_singleton _, ?_⟩
        intro a ha hb
        rw [List.mem_singleton] at hb
        exact hk (hb ▸ ha)
    obtain ⟨h1, h2, h3⟩ := ih (reloadInsert m r) hnd
    refine ⟨h1, ?_, ?_⟩
    · intro id
      rw [List.foldl_cons, h2 id]
      have hkeys : id ∈ (reloadInsert m r).keys ↔ id ∈ m.keys ∨ r.id = id := by
        unfold reloadInsert
        rw [OriginMap.keys_set]
        by_cases hk : r.id ∈ m.keys
        · simp only [hk, if_true]
          constructor
          · exact Or.inl
          · rintro (h | h)
            · exact h
            · exact h ▸ hk
        · simp only [hk, if_false, List.mem_append, List.mem_singleton]
          constructor
          · rintro (h | h)
            · exact Or.inl h
            · exact Or.inr h.symm
          · rintro (h | h)
            · exact Or.inl h
            · exact Or.inr h.symm
      rw [hkeys]
      simp only [List.mem_cons, exists_eq_or_imp]
      tauto
    · intro kd hkd
      rw [List.foldl_cons] at hkd
      rcases h3 kd hkd with h | ⟨x, hx, hxe⟩
      · rcases OriginMap.mem_set m r.id (scanOrigin r) kd h with h | h
        · exact Or.inl h
        · exact Or.inr ⟨r, List.mem_cons_self _ _, h⟩
      · exact Or.inr ⟨x, List.mem_cons_of_mem _ hx, hxe⟩

/-- When the ids of the rows are distinct and new to the local map, the cycle appends one
entry per row, in the order of the rows. -/
theorem foldl_reloadInsert_distinct (rows : List OriginRow) :
    ∀ m : OriginMap, (rows.map (fun r => r.id)).Nodup → (∀ r ∈ rows, r.id ∉ m.keys) →
      rows.foldl reloadInsert m = m ++ rows.map (fun r => (r.id, scanOrigin r)) := by
  induction rows with
  | nil =>
    intro m _ _
    simp
  | cons r rest ih =>
    intro m hnd hnew
    rw [List.map_cons, List.nodup_cons] at hnd
    have hstep : reloadInsert m r = m ++ [(r.id, scanOrigin r)] :=
      OriginMap.set_of_not_mem m r.id _ (hnew r (List.mem_cons_self _ _))
    rw [List.foldl_cons, hstep, ih _ hnd.2]
    · simp
    · intro x hx hmem
      simp only [OriginMap.keys, List.map_append, List.map_cons, List.map_nil,
        List.mem_append, List.mem_singleton] at hmem
      rcases hmem with h | h
      · exact hnew x (List.mem_cons_of_mem _ hx) h
      · exact hnd.1 (List.mem_map.2 ⟨x, hx, h⟩)

/-- The states of the rows loop and of the assignment that follows it: until the
assignment every reader sees the Secure as it was, and the assignment publishes the map
built from all the rows. -/
theorem reloadRows_spec (s : Secure) (rows : List OriginRow) :
    ∀ acc : OriginMap,
      (∀ st ∈ reloadRows s rows acc,
        st.secure = s ∨ st.secure = { s with Origins := rows.foldl reloadInsert acc }) ∧
      (reloadRows s rows acc).getLast? =
        some ⟨{ s with Origins := rows.foldl reloadInsert acc },
          rows.foldl reloadInsert acc⟩ := by
  induction rows with
  | nil =>
    intro acc
    simp [reloadRows]
  | cons r rest ih =>
    intro acc
    obtain ⟨h1, h2⟩ := ih (reloadInsert acc r)
    refine ⟨?_, ?_⟩
    · intro st hst
      simp only [reloadRows, List.mem_cons] at hst
      rcases hst with h | h
      · left
        rw [h]
      · exact h1 st h
    · simp only [reloadRows, List.foldl_cons]
      rw [List.getLast?_cons, h2]
      rfl

/-- The cycles of ReloadOriginsChron one after the other: the state after a further cycle is
that cycle run on the state the earlier cycles left. -/
theorem Secure.ReloadOriginsChron_append (cycles : List (Except String (List OriginRow) × Int))
    (load : Except String (List OriginRow)) (now : Int) :
    ∀ s : Secure, s.ReloadOriginsChron (cycles ++ [(load, now)]) =
      (s.ReloadOriginsChron cycles).bind (fun s1 => s1.reloadCycle load now) := by
  induction cycles with
  | nil =>
    intro s
    simp only [List.nil_append, Secure.ReloadOriginsChron, Option.some_bind]
    cases s.reloadCycle load now <;> rfl
  | cons c rest ih =>
    intro s
    obtain ⟨l0, n0⟩ := c
    simp only [List.cons_append, Secure.ReloadOriginsChron]
    cases s.reloadCycle l0 n0 with
    | none => rfl
    | some s1 => exact ih s1

/-- C14: a refresh cycle that reads the rows of the origins table leaves as snapshot exactly
the origins read: its keys are the ids read, each once, every entry is the scan of a row (its
id, its credential hash with NULL read as empty) with ReqsLastMin = 0, and when the ids read
are distinct, as the primary key makes them, the snapshot is one entry per row. Nothing comes
from the previous Secure: the snapshot is the same whatever the state before. The snapshot
is published by one assignment: in every state the cycle goes through, statement by
statement, the published map is the previous one or the completely built new one. -/
theorem C14_reload_publishes_exactly_the_load (s : Secure) (rows : List OriginRow) (now : Int) :
    ∃ (s1 : Secure) (states : List ReloadState),
      s.reloadCycle (.ok rows) now = some s1 ∧
      s.reloadCycleStates (.ok rows) now = some states ∧
      states.getLast?.map ReloadState.secure = some s1 ∧
      (∀ st ∈ states, st.secure.Origins = s.Origins ∨ st.secure.Origins = s1.Origins) ∧
      s1.Origins.keys.Nodup ∧
      (∀ id, id ∈ s1.Origins.keys ↔ ∃ r ∈ rows, r.id = id) ∧
      (∀ kd ∈ s1.Origins, kd.2.ReqsLastMin = 0 ∧ kd.2.Id = kd.1 ∧
        ∃ r ∈ rows, r.id = kd.1 ∧ kd.2.PassHash = r.pass_hash.getD "") ∧
      ((rows.map (fun r => r.id)).Nodup →
        s1.Origins = rows.map (fun r => (r.id, ⟨r.id, r.pass_hash.getD "", 0⟩))) ∧
      (∀ s2 : Secure, (s2.reloadCycle (.ok rows) now).map Secure.Origins = some s1.Origins) ∧
      s1.MaxRequestsPerMin = s.MaxRequestsPerMin ∧ s1.LastRefreshed = now := by
  obtain ⟨hnd, hkeys, hentries⟩ := foldl_reloadInsert_spec rows [] List.nodup_nil
  obtain ⟨hsteps, hlast⟩ := reloadRows_spec s rows []
  have hlast2 : (⟨s, []⟩ :: reloadRows s rows []).getLast (by simp) =
      ⟨{ s with Origins := rows.foldl reloadInsert [] }, rows.foldl reloadInsert []⟩ := by
    have h := List.getLast?_eq_getLast (⟨s, []⟩ :: reloadRows s rows []) (by simp)
    rw [List.getLast?_cons, hlast] at h
    simpa using h.symm
  refine ⟨{ s with Origins := rows.foldl reloadInsert [], LastRefreshed := now }, _, rfl, rfl,
    ?_, ?_, hnd, ?_, ?_, ?_, ?_, rfl, rfl⟩
  · rw [List.getLast?_append]
    simp [ReloadState.stamp, hlast2]
  · intro st hst
    simp only [List.mem_append, List.mem_cons, List.mem_singleton, List.not_mem_nil,
      or_false] at hst
    rcases hst with (h | h) | h
    · left
      rw [h]
    · rcases hsteps st h with h2 | h2
      · left
        rw [h2]
      · right
        rw [h2]
    · right
      rw [h, hlast2]
      rfl
  · intro id
    rw [hkeys id]
    simp [OriginMap.keys]
  · intro kd hkd
    rcases hentries kd hkd with h | ⟨r, hr, hre⟩
    · simp at h
    · rw [hre]
      exact ⟨rfl, rfl, r, hr, rfl, rfl⟩
  · intro hdistinct
    have h := foldl_reloadInsert_distinct rows [] hdistinct (by simp [OriginMap.keys])
    simpa [scanOrigin] using h
  · intro s2
    rfl

/-- C14 at a concrete cycle: the snapshot in use holds "a" with 17 requests counted and "b"
over the limit; the table now holds "a" and "c", with distinct ids. After the cycle the
snapshot is "a" and "c" with counters 0, and "b" is gone. -/
theorem C14_reload_publishes_exactly_the_load_witness :
    (sampleOriginRows.map (fun r => r.id)).Nodup ∧
    (secureUsed.reloadCycle (.ok sampleOriginRows) 9).map Secure.Origins =
      some [("a", ⟨"a", "", 0⟩),
        ("c", ⟨"c", "ba7816bf8f01cfea414140de5dae2223b00361a396177a9cb410ff61f20015ad", 0⟩)] ∧
    ∃ (s1 : Secure), secureUsed.reloadCycle (.ok sampleOriginRows) 9 = some s1 ∧
      s1.Origins = sampleOriginRows.map (fun r => (r.id, ⟨r.id, r.pass_hash.getD "", 0⟩)) := by
  obtain ⟨s1, _, h1, _, _, _, _, _, _, h8, _⟩ :=
    C14_reload_publishes_exactly_the_load secureUsed sampleOriginRows 9
  exact ⟨by decide, by decide, s1, h1, h8 (by decide)⟩

/-! ## GenStreamEventId -/

/-- The five operands of GenStreamEventId print with no space between them: each pair of
neighbours has a string in it. -/
theorem fmtSprint_event_id (nowUnixNano : Int) (iter : Nat) (streamId : String) :
    fmtSprint [.int64 nowUnixNano, .str "_", .uint64 iter, .str "_", .str streamId] =
      toString nowUnixNano ++ "_" ++ toString iter ++ "_" ++ streamId := by
  simp [fmtSprint, doPrint, SprintArg.isString, SprintArg.text, String.append_assoc]

/-- Two lists that agree after their last occurrence of a separator agree on what follows
it. -/
theorem eq_after_last_separator {α : Type} (x : α) :
    ∀ (l1 l2 r1 r2 : List α), x ∉ l1 → x ∉ l2 → l1 ++ x :: r1 = l2 ++ x :: r2 → l1 = l2 := by
  intro l1
  induction l1 with
  | nil =>
    intro l2 r1 r2 _ h2 heq
    cases l2 with
    | nil => rfl
    | cons b t =>
      simp only [List.nil_append, List.cons_append] at heq
      exact absurd (List.mem_cons_self _ _) ((List.cons.inj heq).1 ▸ h2)
  | cons a t ih =>
    intro l2 r1 r2 h1 h2 heq
    cases l2 with
    | nil =>
      simp only [List.nil_append, List.cons_append] at heq
      exact absurd (List.mem_cons_self _ _) ((List.cons.inj heq).1 ▸ h1)
    | cons b t2 =>
      simp only [List.cons_append] at heq
      obtain ⟨hab, hrest⟩ := List.cons.inj heq
      rw [hab, ih t2 r1 r2 (fun h => h1 (List.mem_cons_of_mem _ h))
        (fun h => h2 (List.mem_cons_of_mem _ h)) hrest]

theorem underscore_not_in_numeral (n : Nat) : '_' ∉ (toString n).data := by
  intro h
  exact absurd ((toString_nat_digits n).1 '_' h).2 (by decide)

/-- Two event ids of one stream with different counter values are different texts,
whatever the two clock readings. -/
theorem event_id_text_injective (t1 t2 : Int) (k1 k2 : Nat) (streamId : String)
    (h : toString t1 ++ "_" ++ toString k1 ++ "_" ++ streamId =
      toString t2 ++ "_" ++ toString k2 ++ "_" ++ streamId) : k1 = k2 := by
  have hd := congrArg String.data h
  simp only [String.data_append] at hd
  have hd2 := (List.append_left_inj _).1 hd
  have hd3 := (List.append_left_inj _).1 hd2
  have hrev := congrArg List.reverse hd3
  simp only [List.reverse_append, List.reverse_cons, List.reverse_nil, List.nil_append,
    List.append_assoc, List.singleton_append] at hrev
  have hk := eq_after_last_separator '_' _ _ _ _
    (by rw [List.mem_reverse]; exact underscore_not_in_numeral k1)
    (by rw [List.mem_reverse]; exact underscore_not_in_numeral k2) hrev
  apply toString_nat_injective
  exact String.ext (List.reverse_injective hk)

theorem wrapUint64_of_lt (n : Nat) (h : n < 2 ^ 64) : wrapUint64 n = n :=
  Nat.mod_eq_of_lt h

/-- Successive calls from counter value c: the call of index i returns the clock reading,
the counter value c + i + 1 and the stream id, separated by underscores. -/
theorem EventStream.GenStreamEventIdSeq_spec (clocks : List Int) :
    ∀ es : EventStream, es.eventIdIter + clocks.length < 2 ^ 64 →
      (es.GenStreamEventIdSeq clocks).1.length = clocks.length ∧
      ∀ (i : Nat) (t : Int), clocks[i]? = some t →
        (es.GenStreamEventIdSeq clocks).1[i]? =
          some (toString t ++ "_" ++ toString (es.eventIdIter + i + 1) ++ "_" ++
            es.EventStreamId) := by
  induction clocks with
  | nil =>
    intro es _
    simp [EventStream.GenStreamEventIdSeq]
  | cons now rest ih =>
    intro es hlen
    simp only [List.length_cons] at hlen
    have hiter : (es.GenStreamEventId now).2.eventIdIter = es.eventIdIter + 1 := by
      simp only [EventStream.GenStreamEventId]
      exact wrapUint64_of_lt _ (by omega)
    have hid : (es.GenStreamEventId now).2.EventStreamId = es.EventStreamId := rfl
    obtain ⟨ih1, ih2⟩ := ih (es.GenStreamEventId now).2 (by rw [hiter]; omega)
    refine ⟨by simp [EventStream.GenStreamEventIdSeq, ih1], ?_⟩
    intro i t ht
    cases i with
    | zero =>
      simp only [List.getElem?_cons_zero, Option.some.injEq] at ht
      subst ht
      simp only [EventStream.GenStreamEventIdSeq, List.getElem?_cons_zero,
        EventStream.GenStreamEventId, fmtSprint_event_id]
      rw [wrapUint64_of_lt _ (by omega)]
    | succ j =>
      simp only [List.getElem?_cons_succ] at ht
      simp only [EventStream.GenStreamEventIdSeq, List.getElem?_cons_succ]
      rw [ih2 j t ht, hiter, hid]
      have : es.eventIdIter + 1 + j + 1 = es.eventIdIter + (j + 1) + 1 := by omega
      rw [this]

theorem Legacy.EventStream.GenStreamEventIdSeq_legacy_spec (clocks : List Int) :
    ∀ es : Legacy.EventStream, es.eventIdIter + clocks.length < 2 ^ 64 →
      (es.GenStreamEventIdSeq clocks).1.length = clocks.length ∧
      ∀ (i : Nat) (t : Int), clocks[i]? = some t →
        (es.GenStreamEventIdSeq clocks).1[i]? =
          some (toString t ++ "_" ++ toString (es.eventIdIter + i + 1) ++ "_" ++
            es.EventStreamId) := by
  induction clocks with
  | nil =>
    intro es _
    simp [Legacy.EventStream.GenStreamEventIdSeq]
  | cons now rest ih =>
    intro es hlen
    simp only [List.length_cons] at hlen
    have hiter : (es.GenStreamEventId now).2.eventIdIter = es.eventIdIter + 1 := by
      simp only [Legacy.EventStream.GenStreamEventId]
      exact wrapUint64_of_lt _ (by omega)
    have hid : (es.GenStreamEventId now).2.EventStreamId = es.EventStreamId := rfl
    obtain ⟨ih1, ih2⟩ := ih (es.GenStreamEventId now).2 (by rw [hiter]; omega)
    refine ⟨by simp [Legacy.EventStream.GenStreamEventIdSeq, ih1], ?_⟩
    intro i t ht
    cases i with
    | zero =>
      simp only [List.getElem?_cons_zero, Option.some.injEq] at ht
      subst ht
      simp only [Legacy.EventStream.GenStreamEventIdSeq, List.getElem?_cons_zero,
        Legacy.EventStream.GenStreamEventId, fmtSprint_event_id]
      rw [wrapUint64_of_lt _ (by omega)]
    | succ j =>
      simp only [List.getElem?_cons_succ] at ht
      simp only [Legacy.EventStream.GenStreamEventIdSeq, List.getElem?_cons_succ]
      rw [ih2 j t ht, hiter, hid]
      have : es.eventIdIter + 1 + j + 1 = es.eventIdIter + (j + 1) + 1 := by omega
      rw [this]

/-- C15: on an EventStream whose counter starts at 0, and for fewer than 2 ^ 64 calls, the
k-th call of GenStreamEventId (k ≥ 1) returns exactly the decimal clock reading, "_", the
decimal numeral of k, "_" and the EventStreamId; any two calls return different texts,
whatever the clock readings are, the same reading twice included. This holds for
GenStreamEventId of both packages. -/
theorem C15_event_ids_are_formatted_and_distinct (es : EventStream) (les : Legacy.EventStream)
    (clocks : List Int) (h0 : es.eventIdIter = 0) (hl0 : les.eventIdIter = 0)
    (hlen : clocks.length < 2 ^ 64) :
    (∀ (k : Nat) (t : Int), 1 ≤ k → clocks[k - 1]? = some t →
      (es.GenStreamEventIdSeq clocks).1[k - 1]? =
        some (toString t ++ "_" ++ toString k ++ "_" ++ es.EventStreamId)) ∧
    (∀ i j : Nat, i < j → j < clocks.length →
      (es.GenStreamEventIdSeq clocks).1[i]? ≠ (es.GenStreamEventIdSeq clocks).1[j]?) ∧
    (∀ (k : Nat) (t : Int), 1 ≤ k → clocks[k - 1]? = some t →
      (les.GenStreamEventIdSeq clocks).1[k - 1]? =
        some (toString t ++ "_" ++ toString k ++ "_" ++ les.EventStreamId)) ∧
    (∀ i j : Nat, i < j → j < clocks.length →
      (les.GenStreamEventIdSeq clocks).1[i]? ≠ (les.GenStreamEventIdSeq clocks).1[j]?) := by
  obtain ⟨_, hspec⟩ := EventStream.GenStreamEventIdSeq_spec clocks es (by rw [h0]; omega)
  obtain ⟨_, hlspec⟩ :=
    Legacy.EventStream.GenStreamEventIdSeq_legacy_spec clocks les (by rw [hl0]; omega)
  rw [h0] at hspec
  rw [hl0] at hlspec
  refine ⟨?_, ?_, ?_, ?_⟩
  · intro k t hk ht
    rw [hspec (k - 1) t ht]
    have : 0 + (k - 1) + 1 = k := by omega
    rw [this]
  · intro i j hij hj heq
    have hi : i < clocks.length := by omega
    rw [hspec i _ (List.getElem?_eq_getElem hi), hspec j _ (List.getElem?_eq_getElem hj)] at heq
    have := event_id_text_injective _ _ _ _ _ (Option.some.inj heq)
    omega
  · intro k t hk ht
    rw [hlspec (k - 1) t ht]
    have : 0 + (k - 1) + 1 = k := by omega
    rw [this]
  · intro i j hij hj heq
    have hi : i < clocks.length := by omega
    rw [hlspec i _ (List.getElem?_eq_getElem hi), hlspec j _ (List.getElem?_eq_getElem hj)]
      at heq
    have := event_id_text_injective _ _ _ _ _ (Option.some.inj heq)
    omega

/-- C15 at concrete calls: two calls on the sample stream, both at clock reading 5, return
"5_1_srv1" and "5_2_srv1". -/
theorem C15_event_ids_are_formatted_and_distinct_witness :
    sampleStream.eventIdIter = 0 ∧ sampleLegacyStream.eventIdIter = 0 ∧
    (sampleStream.GenStreamEventIdSeq [5, 5]).1 = ["5_1_srv1", "5_2_srv1"] ∧
    (sampleStream.GenStreamEventIdSeq [5, 5]).1[0]? ≠
      (sampleStream.GenStreamEventIdSeq [5, 5]).1[1]? :=
  ⟨by decide, by decide, by decide,
    (C15_event_ids_are_formatted_and_distinct sampleStream sampleLegacyStream [5, 5]
      (by decide) (by decide) (by decide)).2.1 0 1 (by decide) (by decide)⟩

end KexStream
